import Mathlib

/-
Verification of the phantasma UDP master server against its
natural-language specification.  The Rust sources are shallowly embedded:
byte slices become `List Nat`, machine integers become `Nat`/`Int` with
explicit modular arithmetic, `HashMap`s become association lists, and the
fallible parsers become functions into an explicit result type.
-/

namespace Phantasma

/-- Result type mirroring Rust `Result<T, E>`. -/
inductive Res (ε : Type) (α : Type) where
  | ok (v : α)
  | err (e : ε)
deriving DecidableEq, Repr

/-- Parse errors of `src/parser.rs` (`parser::Error`). -/
inductive PErr where
  | End
  | InvalidMap
  | InvalidString
  | InvalidBool
  | InvalidInteger
deriving DecidableEq, Repr

/-- Byte predicate used by `Parser::parse_bytes`: a byte that terminates a
token (backslash 0x5C or newline 0x0A). -/
def isStop (c : Nat) : Bool := c == 92 || c == 10

/-- Mirrors `Parser::parse_bytes` from `src/parser.rs`.  The parser state is the
remaining cursor; we return the token together with the new cursor. -/
def parseBytesL : List Nat → Res PErr (List Nat × List Nat)
  | [] => .err .End
  | c :: tail =>
    if c = 92 then
      let pos := tail.findIdx isStop
      .ok (tail.take pos, tail.drop pos)
    else if c = 10 then .err .End
    else .err .InvalidMap

theorem take_findIdx_eq_takeWhile (p : Nat → Bool) (l : List Nat) :
    l.take (l.findIdx p) = l.takeWhile (fun x => !(p x)) := by
  induction l with
  | nil => simp
  | cons a t ih =>
    by_cases h : p a
    · simp [List.findIdx_cons, h, List.takeWhile_cons, List.take_succ_cons]
    · simp [List.findIdx_cons, h, List.takeWhile_cons, List.take_succ_cons, ih]

theorem drop_findIdx_eq_dropWhile (p : Nat → Bool) (l : List Nat) :
    l.drop (l.findIdx p) = l.dropWhile (fun x => !(p x)) := by
  induction l with
  | nil => simp
  | cons a t ih =>
    by_cases h : p a
    · simp [List.findIdx_cons, h, List.dropWhile_cons]
    · simp [List.findIdx_cons, h, List.dropWhile_cons, ih]

theorem parseBytesL_backslash (t : List Nat) :
    parseBytesL (92 :: t) =
      .ok (t.takeWhile (fun x => !(isStop x)), t.dropWhile (fun x => !(isStop x))) := by
  simp [parseBytesL, take_findIdx_eq_takeWhile, drop_findIdx_eq_dropWhile]

/-- C2: `parse_bytes` on the empty slice or a slice beginning with a
newline fails with `End`; on a slice beginning with a backslash it returns
the bytes up to (but excluding) the next backslash or newline and advances
the cursor past exactly those bytes, so `parse_bytes(b"\\")` yields the
empty slice; any other leading byte fails with `InvalidMap`. -/
theorem c2_parse_bytes_contract (l : List Nat) :
    (l = [] → parseBytesL l = .err .End) ∧
    (∀ t, l = 10 :: t → parseBytesL l = .err .End) ∧
    (∀ t, l = 92 :: t →
      ∃ tok rest, parseBytesL l = .ok (tok, rest) ∧
        tok = t.takeWhile (fun x => !(isStop x)) ∧
        tok ++ rest = t ∧
        (∀ c ∈ tok, ¬(c = 92 ∨ c = 10))) ∧
    (parseBytesL [92] = .ok ([], [])) ∧
    (∀ c t, l = c :: t → c ≠ 92 → c ≠ 10 → parseBytesL l = .err .InvalidMap) := by
  refine ⟨?_, ?_, ?_, ?_, ?_⟩
  · rintro rfl; rfl
  · rintro t rfl; rfl
  · rintro t rfl
    refine ⟨_, _, parseBytesL_backslash t, rfl, List.takeWhile_append_dropWhile _ _, ?_⟩
    intro c hc
    have h := List.mem_takeWhile_imp hc
    simp [isStop] at h
    tauto
  · rfl
  · rintro c t rfl h92 h10
    simp [parseBytesL, h92, h10]

theorem c2_witness :
    parseBytesL [92, 97, 98, 92, 99] = .ok ([97, 98], [92, 99]) := by
  obtain ⟨tok, rest, h, htok, happ, -⟩ :=
    (c2_parse_bytes_contract ([92, 97, 98, 92, 99])).2.2.1 ([97, 98, 92, 99]) rfl
  rw [h]
  simp [isStop] at htok
  subst htok
  simp at happ
  rw [happ]

/-- UTF-8 continuation byte test (0x80-0xBF). -/
def isCont (c : Nat) : Bool := 128 ≤ c && c ≤ 191

/-- Success of `str::from_utf8` on a byte sequence. -/
def utf8Valid : List Nat → Bool
  | [] => true
  | c :: rest =>
    if c < 128 then utf8Valid rest
    else if 194 ≤ c ∧ c ≤ 223 then
      match rest with
      | c1 :: r => isCont c1 && utf8Valid r
      | [] => false
    else if c = 224 then
      match rest with
      | c1 :: c2 :: r => (160 ≤ c1 && c1 ≤ 191) && isCont c2 && utf8Valid r
      | _ => false
    else if (225 ≤ c ∧ c ≤ 236) ∨ c = 238 ∨ c = 239 then
      match rest with
      | c1 :: c2 :: r => isCont c1 && isCont c2 && utf8Valid r
      | _ => false
    else if c = 237 then
      match rest with
      | c1 :: c2 :: r => (128 ≤ c1 && c1 ≤ 159) && isCont c2 && utf8Valid r
      | _ => false
    else if c = 240 then
      match rest with
      | c1 :: c2 :: c3 :: r => (144 ≤ c1 && c1 ≤ 191) && isCont c2 && isCont c3 && utf8Valid r
      | _ => false
    else if 241 ≤ c ∧ c ≤ 243 then
      match rest with
      | c1 :: c2 :: c3 :: r => isCont c1 && isCont c2 && isCont c3 && utf8Valid r
      | _ => false
    else if c = 244 then
      match rest with
      | c1 :: c2 :: c3 :: r => (128 ≤ c1 && c1 ≤ 143) && isCont c2 && isCont c3 && utf8Valid r
      | _ => false
    else false

/-- Typed parse for `&str`: `parse_bytes` then a UTF-8 validity check. -/
def parseStr (cur : List Nat) : Res PErr (List Nat × List Nat) :=
  match parseBytesL cur with
  | .err e => .err e
  | .ok (s, r) => if utf8Valid s then .ok (s, r) else .err .InvalidString

/-- Typed parse for `bool`: the token must be exactly "0" or "1". -/
def parseBool (cur : List Nat) : Res PErr (Bool × List Nat) :=
  match parseBytesL cur with
  | .err e => .err e
  | .ok (s, r) =>
    if s = [48] then .ok (false, r)
    else if s = [49] then .ok (true, r)
    else .err .InvalidBool

/-- Accumulating decimal parse of ASCII digit bytes. -/
def decDigitsAux (acc : Nat) : List Nat → Option Nat
  | [] => some acc
  | c :: t => if 48 ≤ c ∧ c ≤ 57 then decDigitsAux (acc * 10 + (c - 48)) t else none

/-- Returns `some v` when the bytes are a nonempty run of ASCII decimal digits. -/
def decDigits (l : List Nat) : Option Nat :=
  match l with
  | [] => none
  | _ => decDigitsAux 0 l

/-- Rust `str::parse::<uN>`: optional leading plus, then decimal digits,
value below `2 ^ bits`.  A minus sign or any other byte is rejected. -/
def rustParseUnsigned (bits : Nat) (s : List Nat) : Option Nat :=
  let body := match s with | 43 :: t => t | t => t
  match decDigits body with
  | some v => if v < 2 ^ bits then some v else none
  | none => none

/-- Rust `str::parse::<iN>`: optional sign, decimal digits, value within
the signed N-bit range. -/
def rustParseSigned (bits : Nat) (s : List Nat) : Option Int :=
  match s with
  | 45 :: t =>
    match decDigits t with
    | some v => if v ≤ 2 ^ (bits - 1) then some (-(v : Int)) else none
    | none => none
  | 43 :: t =>
    match decDigits t with
    | some v => if v < 2 ^ (bits - 1) then some (v : Int) else none
    | none => none
  | t =>
    match decDigits t with
    | some v => if v < 2 ^ (bits - 1) then some (v : Int) else none
    | none => none

/-- Rust cast `i as uN` of a signed value: two's-complement truncation. -/
def toUnsignedBits (bits : Nat) (i : Int) : Nat := (i.emod (2 ^ bits)).toNat

/-- Rust cast `v as iN` of an unsigned value of the same width. -/
def toSignedBits (bits : Nat) (v : Nat) : Int :=
  if v < 2 ^ (bits - 1) then (v : Int) else (v : Int) - 2 ^ bits

/-- Instance of `impl_parse_int` for unsigned N-bit integers (`src/parser.rs`): parse
the token as a string, try the unsigned type, then fall back to the signed
type of the same width reinterpreted in two's complement. -/
def parseUInt (bits : Nat) (cur : List Nat) : Res PErr (Nat × List Nat) :=
  match parseStr cur with
  | .err e => .err e
  | .ok (s, r) =>
    match rustParseUnsigned bits s with
    | some v => .ok (v, r)
    | none =>
      match rustParseSigned bits s with
      | some i => .ok (toUnsignedBits bits i, r)
      | none => .err .InvalidInteger

/-- Instance of `impl_parse_int` for signed N-bit integers: symmetric fallback. -/
def parseSInt (bits : Nat) (cur : List Nat) : Res PErr (Int × List Nat) :=
  match parseStr cur with
  | .err e => .err e
  | .ok (s, r) =>
    match rustParseSigned bits s with
    | some i => .ok (i, r)
    | none =>
      match rustParseUnsigned bits s with
      | some v => .ok (toSignedBits bits v, r)
      | none => .err .InvalidInteger

/-- C7: integer decoding tries the value's own signedness first, then the
opposite signedness of the same width reinterpreted in two's complement:
"-1" as u8 is 255, "255" as i8 is -1, "256" as u8 and "-129" as i8 fail
with `InvalidInteger`, and hex-prefixed text such as "0xff" fails with
`InvalidInteger`. -/
theorem c7_integer_wraparound :
    (∀ bits cur s r, parseStr cur = .ok (s, r) →
      (∀ v, rustParseUnsigned bits s = some v → parseUInt bits cur = .ok (v, r)) ∧
      (rustParseUnsigned bits s = none → ∀ i, rustParseSigned bits s = some i →
        parseUInt bits cur = .ok (toUnsignedBits bits i, r)) ∧
      (rustParseUnsigned bits s = none → rustParseSigned bits s = none →
        parseUInt bits cur = .err .InvalidInteger) ∧
      (∀ i, rustParseSigned bits s = some i → parseSInt bits cur = .ok (i, r)) ∧
      (rustParseSigned bits s = none → ∀ v, rustParseUnsigned bits s = some v →
        parseSInt bits cur = .ok (toSignedBits bits v, r)) ∧
      (rustParseSigned bits s = none → rustParseUnsigned bits s = none →
        parseSInt bits cur = .err .InvalidInteger)) ∧
    parseUInt 8 [92, 45, 49, 10] = .ok (255, [10]) ∧
    parseSInt 8 [92, 50, 53, 53, 10] = .ok (-1, [10]) ∧
    parseUInt 8 [92, 50, 53, 54, 10] = .err .InvalidInteger ∧
    parseSInt 8 [92, 45, 49, 50, 57, 10] = .err .InvalidInteger ∧
    parseUInt 8 [92, 48, 120, 102, 102, 10] = .err .InvalidInteger ∧
    parseSInt 8 [92, 48, 120, 102, 102, 10] = .err .InvalidInteger := by
  refine ⟨?_, by decide, by decide, by decide, by decide, by decide, by decide⟩
  intro bits cur s r h
  refine ⟨?_, ?_, ?_, ?_, ?_, ?_⟩
  · intro v hv; simp [parseUInt, h, hv]
  · intro hu i hi; simp [parseUInt, h, hu, hi]
  · intro hu hi; simp [parseUInt, h, hu, hi]
  · intro i hi; simp [parseSInt, h, hi]
  · intro hi v hv; simp [parseSInt, h, hi, hv]
  · intro hi hu; simp [parseSInt, h, hi, hu]

theorem c7_witness : parseUInt 8 [92, 43, 53, 10] = .ok (5, [10]) :=
  (c7_integer_wraparound.1 8 [92, 43, 53, 10] [43, 53] [10] (by decide)).1 5 (by decide)

/-- Enum `server_info::Os`. -/
inductive Os where
  | Linux
  | Windows
  | Mac
  | Unknown
deriving DecidableEq, Repr

/-- Enum `server_info::ServerType`. -/
inductive ServerType where
  | Dedicated
  | Local
  | Proxy
  | Unknown
deriving DecidableEq, Repr

/-- Enum `server_info::Region`. -/
inductive Region where
  | USEastCoast
  | USWestCoast
  | SouthAmerica
  | Europe
  | Asia
  | Australia
  | MiddleEast
  | Africa
  | RestOfTheWorld
deriving DecidableEq, Repr

/-- Conversion `TryFrom<u8> for Region` (`src/server_info.rs`). -/
def regionTryFrom (v : Nat) : Option Region :=
  if v = 0 then some .USEastCoast
  else if v = 1 then some .USWestCoast
  else if v = 2 then some .SouthAmerica
  else if v = 3 then some .Europe
  else if v = 4 then some .Asia
  else if v = 5 then some .Australia
  else if v = 6 then some .MiddleEast
  else if v = 7 then some .Africa
  else if v = 255 then some .RestOfTheWorld
  else none

/-- Errors of the server-info decoder (`server_info::Error`). -/
inductive SIErr where
  | invalidRegion
  | parser (e : PErr)
deriving DecidableEq, Repr

/-- Typed parse for `Os`: one-byte token, unknown bytes map to Unknown. -/
def parseOs (cur : List Nat) : Res SIErr (Os × List Nat) :=
  match parseBytesL cur with
  | .err e => .err (.parser e)
  | .ok (s, r) =>
    if s = [108] then .ok (.Linux, r)
    else if s = [119] then .ok (.Windows, r)
    else if s = [109] then .ok (.Mac, r)
    else .ok (.Unknown, r)

/-- Typed parse for `ServerType`. -/
def parseServerType (cur : List Nat) : Res SIErr (ServerType × List Nat) :=
  match parseBytesL cur with
  | .err e => .err (.parser e)
  | .ok (s, r) =>
    if s = [100] then .ok (.Dedicated, r)
    else if s = [108] then .ok (.Local, r)
    else if s = [112] then .ok (.Proxy, r)
    else .ok (.Unknown, r)

/-- Typed parse for `Region`: textual u8 then `try_from`. -/
def parseRegion (cur : List Nat) : Res SIErr (Region × List Nat) :=
  match parseUInt 8 cur with
  | .err e => .err (.parser e)
  | .ok (v, r) =>
    match regionTryFrom v with
    | some rg => .ok (rg, r)
    | none => .err .invalidRegion

/-- An IPv4 address as four octets. -/
structure Ip4 where
  o0 : Nat
  o1 : Nat
  o2 : Nat
  o3 : Nat
deriving DecidableEq, Repr

/-- Mirrors `SocketAddrV4`: an IPv4 address and a port. -/
structure Addr where
  ip : Ip4
  port : Nat
deriving DecidableEq, Repr

/-- Mirrors `master_server::Entry<T>`: a value plus its write-time clock reading. -/
structure Entry (α : Type) where
  time : Nat
  value : α
deriving DecidableEq, Repr

/-- Mirrors `server::Server`: the retained projection of a registration. -/
structure Server where
  version : List Nat
  gamedir : List Nat
  map : List Nat
  flags : Nat
  region : Region
deriving DecidableEq, Repr

/-- Mirrors `server_info::ServerInfo` with strings as byte lists; `flags` is the
`ServerFlags` bitset (BOTS=1, PASSWORD=2, SECURE=4, LAN=8). -/
structure ServerInfo where
  gamedir : List Nat
  map : List Nat
  version : List Nat
  product : List Nat
  server_type : ServerType
  os : Os
  region : Region
  protocol : Nat
  players : Nat
  max : Nat
  flags : Nat
deriving DecidableEq, Repr

/-- Default value `ServerInfo::default()`. -/
def defaultServerInfo : ServerInfo :=
  ⟨[], [], [], [], .Unknown, .Unknown, .RestOfTheWorld, 0, 0, 0, 0⟩

/-- Mirrors `filter::Filter` (strings as byte lists, flags as 16-bit naturals). -/
structure Filter where
  nor : Option Nat
  nand : Option Nat
  gamedir : Option (List Nat)
  map : Option (List Nat)
  gametype : Option (List Nat)
  gamedata : Option (List Nat)
  gamedataor : Option (List Nat)
  name_match : Option (List Nat)
  version_match : Option (List Nat)
  gameaddr : Option Addr
  appid : Option Nat
  napp : Option Nat
  collapse_addr_hash : Bool
  flags : Nat
  flags_mask : Nat
deriving DecidableEq, Repr

/-- Default value `Filter::default()`. -/
def defaultFilter : Filter :=
  ⟨none, none, none, none, none, none, none, none, none, none, none, none,
   false, 0, 0⟩

/-- Operation `set` of `bitflags` on a 16-bit flag set. -/
def setB16 (f bit : Nat) (v : Bool) : Nat :=
  if v then f ||| bit else f &&& (65535 ^^^ bit)

/-- Operation `set` of `bitflags` on an 8-bit flag set. -/
def setB8 (f bit : Nat) (v : Bool) : Nat :=
  if v then f ||| bit else f &&& (255 ^^^ bit)

/-- Mirrors `Filter::insert_flag`: write the bit into `flags` and insert it into
`flags_mask`. -/
def insertFlag (f : Filter) (bit : Nat) (v : Bool) : Filter :=
  { f with flags := setB16 f.flags bit v, flags_mask := f.flags_mask ||| bit }

/-- ASCII characters to bytes, for the literal key names of the decoders. -/
def kw (l : List Char) : List Nat := l.map Char.toNat

def kwDedicated : List Nat := kw ['d', 'e', 'd', 'i', 'c', 'a', 't', 'e', 'd']
def kwSecure : List Nat := kw ['s', 'e', 'c', 'u', 'r', 'e']
def kwGamedir : List Nat := kw ['g', 'a', 'm', 'e', 'd', 'i', 'r']
def kwMap : List Nat := kw ['m', 'a', 'p']
def kwEmpty : List Nat := kw ['e', 'm', 'p', 't', 'y']
def kwFull : List Nat := kw ['f', 'u', 'l', 'l']
def kwLinux : List Nat := kw ['l', 'i', 'n', 'u', 'x']
def kwPassword : List Nat := kw ['p', 'a', 's', 's', 'w', 'o', 'r', 'd']
def kwProxy : List Nat := kw ['p', 'r', 'o', 'x', 'y']
def kwAppid : List Nat := kw ['a', 'p', 'p', 'i', 'd']
def kwNapp : List Nat := kw ['n', 'a', 'p', 'p']
def kwNand : List Nat := kw ['n', 'a', 'n', 'd']
def kwNor : List Nat := kw ['n', 'o', 'r']
def kwNoplayers : List Nat := kw ['n', 'o', 'p', 'l', 'a', 'y', 'e', 'r', 's']
def kwWhite : List Nat := kw ['w', 'h', 'i', 't', 'e']
def kwGametype : List Nat := kw ['g', 'a', 'm', 'e', 't', 'y', 'p', 'e']
def kwGamedata : List Nat := kw ['g', 'a', 'm', 'e', 'd', 'a', 't', 'a']
def kwGamedataor : List Nat := kw ['g', 'a', 'm', 'e', 'd', 'a', 't', 'a', 'o', 'r']
def kwNameMatch : List Nat := kw ['n', 'a', 'm', 'e', '_', 'm', 'a', 't', 'c', 'h']
def kwVersionMatch : List Nat := kw ['v', 'e', 'r', 's', 'i', 'o', 'n', '_', 'm', 'a', 't', 'c', 'h']
def kwCollapse : List Nat :=
  kw ['c', 'o', 'l', 'l', 'a', 'p', 's', 'e', '_', 'a', 'd', 'd', 'r', '_', 'h', 'a', 's', 'h']
def kwGameaddr : List Nat := kw ['g', 'a', 'm', 'e', 'a', 'd', 'd', 'r']
def kwLan : List Nat := kw ['l', 'a', 'n']
def kwBots : List Nat := kw ['b', 'o', 't', 's']
def kwProtocol : List Nat := kw ['p', 'r', 'o', 't', 'o', 'c', 'o', 'l']
def kwChallenge : List Nat := kw ['c', 'h', 'a', 'l', 'l', 'e', 'n', 'g', 'e']
def kwPlayers : List Nat := kw ['p', 'l', 'a', 'y', 'e', 'r', 's']
def kwMax : List Nat := kw ['m', 'a', 'x']
def kwType : List Nat := kw ['t', 'y', 'p', 'e']
def kwOsName : List Nat := kw ['o', 's']
def kwVersion : List Nat := kw ['v', 'e', 'r', 's', 'i', 'o', 'n']
def kwRegion : List Nat := kw ['r', 'e', 'g', 'i', 'o', 'n']
def kwProduct : List Nat := kw ['p', 'r', 'o', 'd', 'u', 'c', 't']

/-- ASCII decimal digit test. -/
def isDigitB (c : Nat) : Bool := 48 ≤ c && c ≤ 57

/-- A digit run with a leading zero (other than "0" itself) is rejected by
the std address parser. -/
def noLeadZero (ds : List Nat) : Bool :=
  match ds with
  | 48 :: _ :: _ => false
  | _ => true

/-- Value of an IPv4 octet text: 1-3 digits, no leading zero, at most 255.
Modelled from std `Ipv4Addr::from_str`. -/
def octetVal (ds : List Nat) : Option Nat :=
  match decDigits ds with
  | some v =>
    if ds.length ≤ 3 ∧ noLeadZero ds = true ∧ v ≤ 255 then some v else none
  | none => none

/-- Read one octet off the front of the byte list. -/
def readOctet (l : List Nat) : Option (Nat × List Nat) :=
  match octetVal (l.takeWhile isDigitB) with
  | some v => some (v, l.dropWhile isDigitB)
  | none => none

/-- Expect a single byte at the head. -/
def expectByte (b : Nat) (l : List Nat) : Option (List Nat) :=
  match l with
  | c :: t => if c = b then some t else none
  | [] => none

/-- Read a dotted-quad IPv4 address off the front of the byte list.
Modelled from std `Ipv4Addr::from_str`. -/
def readIpv4 (l : List Nat) : Option (Ip4 × List Nat) :=
  match readOctet l with
  | none => none
  | some (a, r1) =>
    match expectByte 46 r1 with
    | none => none
    | some r2 =>
      match readOctet r2 with
      | none => none
      | some (b, r3) =>
        match expectByte 46 r3 with
        | none => none
        | some r4 =>
          match readOctet r4 with
          | none => none
          | some (c, r5) =>
            match expectByte 46 r5 with
            | none => none
            | some r6 =>
              match readOctet r6 with
              | none => none
              | some (d, r7) => some (⟨a, b, c, d⟩, r7)

/-- std `"a.b.c.d".parse::<Ipv4Addr>()`: the whole string is the quad. -/
def parseIpv4Full (s : List Nat) : Option Ip4 :=
  match readIpv4 s with
  | some (ip, r) => if r = [] then some ip else none
  | none => none

/-- std `"a.b.c.d:port".parse::<SocketAddrV4>()`. -/
def parseSocketAddrV4Full (s : List Nat) : Option Addr :=
  match readIpv4 s with
  | none => none
  | some (ip, r) =>
    match expectByte 58 r with
    | none => none
    | some r2 =>
      match decDigits r2 with
      | some p => if noLeadZero r2 = true ∧ p ≤ 65535 then some ⟨ip, p⟩ else none
      | none => none

/-- Run a boolean value parse and build the updated filter. -/
def pBoolF (r : List Nat) (g : Bool → Filter) : Res PErr (Filter × List Nat) :=
  match parseBool r with
  | .ok (v, r2) => .ok (g v, r2)
  | .err e => .err e

/-- Run a string value parse and build the updated filter. -/
def pStrF (r : List Nat) (g : List Nat → Filter) : Res PErr (Filter × List Nat) :=
  match parseStr r with
  | .ok (v, r2) => .ok (g v, r2)
  | .err e => .err e

/-- Run a u32 value parse and build the updated filter. -/
def pU32F (r : List Nat) (g : Nat → Filter) : Res PErr (Filter × List Nat) :=
  match parseUInt 32 r with
  | .ok (v, r2) => .ok (g v, r2)
  | .err e => .err e

/-- Dispatch of the `gameaddr` key: string value, socket-address parse
with a plain-address fallback at port 0. -/
def pGameaddrF (r : List Nat) (f : Filter) : Res PErr (Filter × List Nat) :=
  match parseStr r with
  | .err e => .err e
  | .ok (s, r2) =>
    match parseSocketAddrV4Full s with
    | some a => .ok ({ f with gameaddr := some a }, r2)
    | none =>
      match parseIpv4Full s with
      | some ip => .ok ({ f with gameaddr := some ⟨ip, 0⟩ }, r2)
      | none => .ok (f, r2)

/-- Dispatch of an unknown key: read and discard the next value. -/
def pSkipF (r : List Nat) (f : Filter) : Res PErr (Filter × List Nat) :=
  match parseBytesL r with
  | .ok (_, r2) => .ok (f, r2)
  | .err e => .err e

/-- One iteration of the `Filter` decoding loop after the key `name` has
been read: the dispatch on the key (`src/filter.rs`, `ParseValue for
Filter`). -/
def stepArm (f : Filter) (name r : List Nat) : Res PErr (Filter × List Nat) :=
  if name = kwDedicated then pBoolF r (insertFlag f 1)
  else if name = kwSecure then pBoolF r (insertFlag f 4)
  else if name = kwGamedir then pStrF r (fun s => { f with gamedir := some s })
  else if name = kwMap then pStrF r (fun s => { f with map := some s })
  else if name = kwEmpty then pBoolF r (insertFlag f 32)
  else if name = kwFull then pBoolF r (insertFlag f 64)
  else if name = kwLinux then pBoolF r (insertFlag f 8)
  else if name = kwPassword then pBoolF r (insertFlag f 16)
  else if name = kwProxy then pBoolF r (insertFlag f 2)
  else if name = kwAppid then pU32F r (fun v => { f with appid := some v })
  else if name = kwNapp then pU32F r (fun v => { f with napp := some v })
  else if name = kwNand then pBoolF r (insertFlag f 4096)
  else if name = kwNor then pBoolF r (insertFlag f 2048)
  else if name = kwNoplayers then pBoolF r (insertFlag f 128)
  else if name = kwWhite then pBoolF r (insertFlag f 256)
  else if name = kwGametype then pStrF r (fun s => { f with gametype := some s })
  else if name = kwGamedata then pStrF r (fun s => { f with gamedata := some s })
  else if name = kwGamedataor then pStrF r (fun s => { f with gamedataor := some s })
  else if name = kwNameMatch then pStrF r (fun s => { f with name_match := some s })
  else if name = kwVersionMatch then pStrF r (fun s => { f with version_match := some s })
  else if name = kwCollapse then pBoolF r (fun v => { f with collapse_addr_hash := v })
  else if name = kwGameaddr then pGameaddrF r f
  else if name = kwLan then pBoolF r (insertFlag f 512)
  else if name = kwBots then pBoolF r (insertFlag f 1024)
  else pSkipF r f

theorem parseBytesL_shrink : ∀ {cur t r : List Nat},
    parseBytesL cur = .ok (t, r) → r.length < cur.length := by
  intro cur t r h
  cases cur with
  | nil => simp [parseBytesL] at h
  | cons c tail =>
    by_cases h92 : c = 92
    · subst h92
      have he : parseBytesL (92 :: tail) =
          .ok (tail.take (tail.findIdx isStop), tail.drop (tail.findIdx isStop)) := rfl
      rw [he] at h
      simp only [Res.ok.injEq, Prod.mk.injEq] at h
      obtain ⟨-, h2⟩ := h
      subst h2
      simp only [List.length_drop, List.length_cons]
      omega
    · by_cases h10 : c = 10 <;> simp [parseBytesL, h92, h10] at h

/-- Decode of a bool token: "0" or "1". -/
def boolOf (tok : List Nat) : Option Bool :=
  if tok = [48] then some false else if tok = [49] then some true else none

theorem parseStr_inv : ∀ {cur s r : List Nat},
    parseStr cur = .ok (s, r) →
    parseBytesL cur = .ok (s, r) ∧ utf8Valid s = true := by
  intro cur s r h
  unfold parseStr at h
  cases hb : parseBytesL cur with
  | err e => simp [hb] at h
  | ok p =>
    obtain ⟨s0, r0⟩ := p
    simp only [hb] at h
    split at h
    · simp only [Res.ok.injEq, Prod.mk.injEq] at h
      obtain ⟨hs, hr⟩ := h
      subst hs; subst hr
      exact ⟨rfl, by assumption⟩
    · simp at h

theorem parseBool_inv : ∀ {cur : List Nat} {b : Bool} {r : List Nat},
    parseBool cur = .ok (b, r) →
    ∃ s, parseBytesL cur = .ok (s, r) ∧ boolOf s = some b := by
  intro cur b r h
  unfold parseBool at h
  cases hb : parseBytesL cur with
  | err e => simp [hb] at h
  | ok p =>
    obtain ⟨s0, r0⟩ := p
    simp only [hb] at h
    split at h
    · rename_i hs0
      simp only [Res.ok.injEq, Prod.mk.injEq] at h
      obtain ⟨hbv, hr⟩ := h
      subst hbv; subst hr
      exact ⟨s0, rfl, by simp [boolOf, hs0]⟩
    · split at h
      · rename_i hs0 hs1
        simp only [Res.ok.injEq, Prod.mk.injEq] at h
        obtain ⟨hbv, hr⟩ := h
        subst hbv; subst hr
        exact ⟨s0, rfl, by simp [boolOf, hs0, hs1]⟩
      · simp at h

theorem parseUInt_inv : ∀ {bits : Nat} {cur : List Nat} {v : Nat} {r : List Nat},
    parseUInt bits cur = .ok (v, r) →
    ∃ s, parseBytesL cur = .ok (s, r) := by
  intro bits cur v r h
  unfold parseUInt at h
  cases hb : parseStr cur with
  | err e => simp [hb] at h
  | ok p =>
    obtain ⟨s0, r0⟩ := p
    simp only [hb] at h
    have hinv := parseStr_inv hb
    split at h
    · simp only [Res.ok.injEq, Prod.mk.injEq] at h
      obtain ⟨-, hr⟩ := h
      subst hr
      exact ⟨s0, hinv.1⟩
    · split at h
      · simp only [Res.ok.injEq, Prod.mk.injEq] at h
        obtain ⟨-, hr⟩ := h
        subst hr
        exact ⟨s0, hinv.1⟩
      · simp at h

theorem pBoolF_inv : ∀ {r : List Nat} {g : Bool → Filter} {f1 : Filter} {r2 : List Nat},
    pBoolF r g = .ok (f1, r2) →
    ∃ s b, parseBytesL r = .ok (s, r2) ∧ boolOf s = some b ∧ f1 = g b := by
  intro r g f1 r2 h
  unfold pBoolF at h
  cases hb : parseBool r with
  | err e => simp [hb] at h
  | ok p =>
    obtain ⟨v, r1⟩ := p
    simp only [hb, Res.ok.injEq, Prod.mk.injEq] at h
    obtain ⟨hf, hr⟩ := h
    subst hr
    obtain ⟨s, hps, hbs⟩ := parseBool_inv hb
    exact ⟨s, v, hps, hbs, hf.symm⟩

theorem pStrF_inv : ∀ {r : List Nat} {g : List Nat → Filter} {f1 : Filter} {r2 : List Nat},
    pStrF r g = .ok (f1, r2) →
    ∃ s, parseBytesL r = .ok (s, r2) ∧ utf8Valid s = true ∧ f1 = g s := by
  intro r g f1 r2 h
  unfold pStrF at h
  cases hb : parseStr r with
  | err e => simp [hb] at h
  | ok p =>
    obtain ⟨v, r1⟩ := p
    simp only [hb, Res.ok.injEq, Prod.mk.injEq] at h
    obtain ⟨hf, hr⟩ := h
    subst hr
    obtain ⟨hps, hutf⟩ := parseStr_inv hb
    exact ⟨v, hps, hutf, hf.symm⟩

theorem pU32F_inv : ∀ {r : List Nat} {g : Nat → Filter} {f1 : Filter} {r2 : List Nat},
    pU32F r g = .ok (f1, r2) →
    ∃ s, parseBytesL r = .ok (s, r2) ∧ ∃ v, f1 = g v := by
  intro r g f1 r2 h
  unfold pU32F at h
  cases hb : parseUInt 32 r with
  | err e => simp [hb] at h
  | ok p =>
    obtain ⟨v, r1⟩ := p
    simp only [hb, Res.ok.injEq, Prod.mk.injEq] at h
    obtain ⟨hf, hr⟩ := h
    subst hr
    obtain ⟨s, hps⟩ := parseUInt_inv hb
    exact ⟨s, hps, v, hf.symm⟩

theorem pGameaddrF_inv : ∀ {r : List Nat} {f f1 : Filter} {r2 : List Nat},
    pGameaddrF r f = .ok (f1, r2) →
    ∃ s, parseBytesL r = .ok (s, r2) ∧
      f1.flags = f.flags ∧ f1.flags_mask = f.flags_mask := by
  intro r f f1 r2 h
  unfold pGameaddrF at h
  cases hb : parseStr r with
  | err e => simp [hb] at h
  | ok p =>
    obtain ⟨s, r1⟩ := p
    simp only [hb] at h
    obtain ⟨hps, -⟩ := parseStr_inv hb
    cases hsa : parseSocketAddrV4Full s with
    | some a =>
      simp only [hsa, Res.ok.injEq, Prod.mk.injEq] at h
      obtain ⟨hf, hr⟩ := h
      subst hr
      exact ⟨s, hps, by rw [← hf], by rw [← hf]⟩
    | none =>
      simp only [hsa] at h
      cases hip : parseIpv4Full s with
      | some ip =>
        simp only [hip, Res.ok.injEq, Prod.mk.injEq] at h
        obtain ⟨hf, hr⟩ := h
        subst hr
        exact ⟨s, hps, by rw [← hf], by rw [← hf]⟩
      | none =>
        simp only [hip, Res.ok.injEq, Prod.mk.injEq] at h
        obtain ⟨hf, hr⟩ := h
        subst hr
        exact ⟨s, hps, by rw [← hf], by rw [← hf]⟩

theorem pSkipF_inv : ∀ {r : List Nat} {f f1 : Filter} {r2 : List Nat},
    pSkipF r f = .ok (f1, r2) →
    ∃ s, parseBytesL r = .ok (s, r2) ∧ f1 = f := by
  intro r f f1 r2 h
  unfold pSkipF at h
  cases hb : parseBytesL r with
  | err e => simp [hb] at h
  | ok p =>
    obtain ⟨v, r1⟩ := p
    simp only [hb, Res.ok.injEq, Prod.mk.injEq] at h
    obtain ⟨hf, hr⟩ := h
    subst hr
    exact ⟨v, rfl, hf.symm⟩

/-- Full characterization of one dispatch step of the filter decoder: it
always consumes exactly one value token, flag keys apply `insert_flag`
with the decoded bool, and every other key leaves `flags` and
`flags_mask` untouched. -/
theorem stepArm_char : ∀ {f : Filter} {name r : List Nat} {f1 : Filter} {r2 : List Nat},
    stepArm f name r = .ok (f1, r2) →
    ∃ tok, parseBytesL r = .ok (tok, r2) ∧
      (name = kwDedicated → ∃ b, boolOf tok = some b ∧ f1 = insertFlag f 1 b) ∧
      (name = kwSecure → ∃ b, boolOf tok = some b ∧ f1 = insertFlag f 4 b) ∧
      (name = kwEmpty → ∃ b, boolOf tok = some b ∧ f1 = insertFlag f 32 b) ∧
      (name = kwFull → ∃ b, boolOf tok = some b ∧ f1 = insertFlag f 64 b) ∧
      (name = kwLinux → ∃ b, boolOf tok = some b ∧ f1 = insertFlag f 8 b) ∧
      (name = kwPassword → ∃ b, boolOf tok = some b ∧ f1 = insertFlag f 16 b) ∧
      (name = kwProxy → ∃ b, boolOf tok = some b ∧ f1 = insertFlag f 2 b) ∧
      (name = kwNand → ∃ b, boolOf tok = some b ∧ f1 = insertFlag f 4096 b) ∧
      (name = kwNor → ∃ b, boolOf tok = some b ∧ f1 = insertFlag f 2048 b) ∧
      (name = kwNoplayers → ∃ b, boolOf tok = some b ∧ f1 = insertFlag f 128 b) ∧
      (name = kwWhite → ∃ b, boolOf tok = some b ∧ f1 = insertFlag f 256 b) ∧
      (name = kwLan → ∃ b, boolOf tok = some b ∧ f1 = insertFlag f 512 b) ∧
      (name = kwBots → ∃ b, boolOf tok = some b ∧ f1 = insertFlag f 1024 b) ∧
      (¬(name = kwDedicated ∨
         name = kwSecure ∨
         name = kwEmpty ∨
         name = kwFull ∨
         name = kwLinux ∨
         name = kwPassword ∨
         name = kwProxy ∨
         name = kwNand ∨
         name = kwNor ∨
         name = kwNoplayers ∨
         name = kwWhite ∨
         name = kwLan ∨
         name = kwBots) →
        f1.flags = f.flags ∧ f1.flags_mask = f.flags_mask) := by
  intro f name r f1 r2 h
  rw [stepArm.eq_def] at h
  by_cases h1 : name = kwDedicated
  · rw [if_pos h1] at h
    obtain ⟨s, b, hps, hbs, hf1⟩ := pBoolF_inv h
    refine ⟨s, hps, ?_,?_,?_,?_,?_,?_,?_,?_,?_,?_,?_,?_,?_,?_⟩
    · intro _; exact ⟨b, hbs, hf1⟩
    · intro he; exact absurd (h1.symm.trans he) (by decide)
    · intro he; exact absurd (h1.symm.trans he) (by decide)
    · intro he; exact absurd (h1.symm.trans he) (by decide)
    · intro he; exact absurd (h1.symm.trans he) (by decide)
    · intro he; exact absurd (h1.symm.trans he) (by decide)
    · intro he; exact absurd (h1.symm.trans he) (by decide)
    · intro he; exact absurd (h1.symm.trans he) (by decide)
    · intro he; exact absurd (h1.symm.trans he) (by decide)
    · intro he; exact absurd (h1.symm.trans he) (by decide)
    · intro he; exact absurd (h1.symm.trans he) (by decide)
    · intro he; exact absurd (h1.symm.trans he) (by decide)
    · intro he; exact absurd (h1.symm.trans he) (by decide)
    · intro hn; exact absurd (by tauto) hn
  rw [if_neg h1] at h
  by_cases h2 : name = kwSecure
  · rw [if_pos h2] at h
    obtain ⟨s, b, hps, hbs, hf1⟩ := pBoolF_inv h
    refine ⟨s, hps, ?_,?_,?_,?_,?_,?_,?_,?_,?_,?_,?_,?_,?_,?_⟩
    · intro he; exact absurd (h2.symm.trans he) (by decide)
    · intro _; exact ⟨b, hbs, hf1⟩
    · intro he; exact absurd (h2.symm.trans he) (by decide)
    · intro he; exact absurd (h2.symm.trans he) (by decide)
    · intro he; exact absurd (h2.symm.trans he) (by decide)
    · intro he; exact absurd (h2.symm.trans he) (by decide)
    · intro he; exact absurd (h2.symm.trans he) (by decide)
    · intro he; exact absurd (h2.symm.trans he) (by decide)
    · intro he; exact absurd (h2.symm.trans he) (by decide)
    · intro he; exact absurd (h2.symm.trans he) (by decide)
    · intro he; exact absurd (h2.symm.trans he) (by decide)
    · intro he; exact absurd (h2.symm.trans he) (by decide)
    · intro he; exact absurd (h2.symm.trans he) (by decide)
    · intro hn; exact absurd (by tauto) hn
  rw [if_neg h2] at h
  by_cases h3 : name = kwGamedir
  · rw [if_pos h3] at h
    obtain ⟨s, hps, hutf, hf1⟩ := pStrF_inv h
    refine ⟨s, hps, ?_,?_,?_,?_,?_,?_,?_,?_,?_,?_,?_,?_,?_,?_⟩
    · intro he; exact absurd (h3.symm.trans he) (by decide)
    · intro he; exact absurd (h3.symm.trans he) (by decide)
    · intro he; exact absurd (h3.symm.trans he) (by decide)
    · intro he; exact absurd (h3.symm.trans he) (by decide)
    · intro he; exact absurd (h3.symm.trans he) (by decide)
    · intro he; exact absurd (h3.symm.trans he) (by decide)
    · intro he; exact absurd (h3.symm.trans he) (by decide)
    · intro he; exact absurd (h3.symm.trans he) (by decide)
    · intro he; exact absurd (h3.symm.trans he) (by decide)
    · intro he; exact absurd (h3.symm.trans he) (by decide)
    · intro he; exact absurd (h3.symm.trans he) (by decide)
    · intro he; exact absurd (h3.symm.trans he) (by decide)
    · intro he; exact absurd (h3.symm.trans he) (by decide)
    · intro _; subst hf1; exact ⟨rfl, rfl⟩
  rw [if_neg h3] at h
  by_cases h4 : name = kwMap
  · rw [if_pos h4] at h
    obtain ⟨s, hps, hutf, hf1⟩ := pStrF_inv h
    refine ⟨s, hps, ?_,?_,?_,?_,?_,?_,?_,?_,?_,?_,?_,?_,?_,?_⟩
    · intro he; exact absurd (h4.symm.trans he) (by decide)
    · intro he; exact absurd (h4.symm.trans he) (by decide)
    · intro he; exact absurd (h4.symm.trans he) (by decide)
    · intro he; exact absurd (h4.symm.trans he) (by decide)
    · intro he; exact absurd (h4.symm.trans he) (by decide)
    · intro he; exact absurd (h4.symm.trans he) (by decide)
    · intro he; exact absurd (h4.symm.trans he) (by decide)
    · intro he; exact absurd (h4.symm.trans he) (by decide)
    · intro he; exact absurd (h4.symm.trans he) (by decide)
    · intro he; exact absurd (h4.symm.trans he) (by decide)
    · intro he; exact absurd (h4.symm.trans he) (by decide)
    · intro he; exact absurd (h4.symm.trans he) (by decide)
    · intro he; exact absurd (h4.symm.trans he) (by decide)
    · intro _; subst hf1; exact ⟨rfl, rfl⟩
  rw [if_neg h4] at h
  by_cases h5 : name = kwEmpty
  · rw [if_pos h5] at h
    obtain ⟨s, b, hps, hbs, hf1⟩ := pBoolF_inv h
    refine ⟨s, hps, ?_,?_,?_,?_,?_,?_,?_,?_,?_,?_,?_,?_,?_,?_⟩
    · intro he; exact absurd (h5.symm.trans he) (by decide)
    · intro he; exact absurd (h5.symm.trans he) (by decide)
    · intro _; exact ⟨b, hbs, hf1⟩
    · intro he; exact absurd (h5.symm.trans he) (by decide)
    · intro he; exact absurd (h5.symm.trans he) (by decide)
    · intro he; exact absurd (h5.symm.trans he) (by decide)
    · intro he; exact absurd (h5.symm.trans he) (by decide)
    · intro he; exact absurd (h5.symm.trans he) (by decide)
    · intro he; exact absurd (h5.symm.trans he) (by decide)
    · intro he; exact absurd (h5.symm.trans he) (by decide)
    · intro he; exact absurd (h5.symm.trans he) (by decide)
    · intro he; exact absurd (h5.symm.trans he) (by decide)
    · intro he; exact absurd (h5.symm.trans he) (by decide)
    · intro hn; exact absurd (by tauto) hn
  rw [if_neg h5] at h
  by_cases h6 : name = kwFull
  · rw [if_pos h6] at h
    obtain ⟨s, b, hps, hbs, hf1⟩ := pBoolF_inv h
    refine ⟨s, hps, ?_,?_,?_,?_,?_,?_,?_,?_,?_,?_,?_,?_,?_,?_⟩
    · intro he; exact absurd (h6.symm.trans he) (by decide)
    · intro he; exact absurd (h6.symm.trans he) (by decide)
    · intro he; exact absurd (h6.symm.trans he) (by decide)
    · intro _; exact ⟨b, hbs, hf1⟩
    · intro he; exact absurd (h6.symm.trans he) (by decide)
    · intro he; exact absurd (h6.symm.trans he) (by decide)
    · intro he; exact absurd (h6.symm.trans he) (by decide)
    · intro he; exact absurd (h6.symm.trans he) (by decide)
    · intro he; exact absurd (h6.symm.trans he) (by decide)
    · intro he; exact absurd (h6.symm.trans he) (by decide)
    · intro he; exact absurd (h6.symm.trans he) (by decide)
    · intro he; exact absurd (h6.symm.trans he) (by decide)
    · intro he; exact absurd (h6.symm.trans he) (by decide)
    · intro hn; exact absurd (by tauto) hn
  rw [if_neg h6] at h
  by_cases h7 : name = kwLinux
  · rw [if_pos h7] at h
    obtain ⟨s, b, hps, hbs, hf1⟩ := pBoolF_inv h
    refine ⟨s, hps, ?_,?_,?_,?_,?_,?_,?_,?_,?_,?_,?_,?_,?_,?_⟩
    · intro he; exact absurd (h7.symm.trans he) (by decide)
    · intro he; exact absurd (h7.symm.trans he) (by decide)
    · intro he; exact absurd (h7.symm.trans he) (by decide)
    · intro he; exact absurd (h7.symm.trans he) (by decide)
    · intro _; exact ⟨b, hbs, hf1⟩
    · intro he; exact absurd (h7.symm.trans he) (by decide)
    · intro he; exact absurd (h7.symm.trans he) (by decide)
    · intro he; exact absurd (h7.symm.trans he) (by decide)
    · intro he; exact absurd (h7.symm.trans he) (by decide)
    · intro he; exact absurd (h7.symm.trans he) (by decide)
    · intro he; exact absurd (h7.symm.trans he) (by decide)
    · intro he; exact absurd (h7.symm.trans he) (by decide)
    · intro he; exact absurd (h7.symm.trans he) (by decide)
    · intro hn; exact absurd (by tauto) hn
  rw [if_neg h7] at h
  by_cases h8 : name = kwPassword
  · rw [if_pos h8] at h
    obtain ⟨s, b, hps, hbs, hf1⟩ := pBoolF_inv h
    refine ⟨s, hps, ?_,?_,?_,?_,?_,?_,?_,?_,?_,?_,?_,?_,?_,?_⟩
    · intro he; exact absurd (h8.symm.trans he) (by decide)
    · intro he; exact absurd (h8.symm.trans he) (by decide)
    · intro he; exact absurd (h8.symm.trans he) (by decide)
    · intro he; exact absurd (h8.symm.trans he) (by decide)
    · intro he; exact absurd (h8.symm.trans he) (by decide)
    · intro _; exact ⟨b, hbs, hf1⟩
    · intro he; exact absurd (h8.symm.trans he) (by decide)
    · intro he; exact absurd (h8.symm.trans he) (by decide)
    · intro he; exact absurd (h8.symm.trans he) (by decide)
    · intro he; exact absurd (h8.symm.trans he) (by decide)
    · intro he; exact absurd (h8.symm.trans he) (by decide)
    · intro he; exact absurd (h8.symm.trans he) (by decide)
    · intro he; exact absurd (h8.symm.trans he) (by decide)
    · intro hn; exact absurd (by tauto) hn
  rw [if_neg h8] at h
  by_cases h9 : name = kwProxy
  · rw [if_pos h9] at h
    obtain ⟨s, b, hps, hbs, hf1⟩ := pBoolF_inv h
    refine ⟨s, hps, ?_,?_,?_,?_,?_,?_,?_,?_,?_,?_,?_,?_,?_,?_⟩
    · intro he; exact absurd (h9.symm.trans he) (by decide)
    · intro he; exact absurd (h9.symm.trans he) (by decide)
    · intro he; exact absurd (h9.symm.trans he) (by decide)
    · intro he; exact absurd (h9.symm.trans he) (by decide)
    · intro he; exact absurd (h9.symm.trans he) (by decide)
    · intro he; exact absurd (h9.symm.trans he) (by decide)
    · intro _; exact ⟨b, hbs, hf1⟩
    · intro he; exact absurd (h9.symm.trans he) (by decide)
    · intro he; exact absurd (h9.symm.trans he) (by decide)
    · intro he; exact absurd (h9.symm.trans he) (by decide)
    · intro he; exact absurd (h9.symm.trans he) (by decide)
    · intro he; exact absurd (h9.symm.trans he) (by decide)
    · intro he; exact absurd (h9.symm.trans he) (by decide)
    · intro hn; exact absurd (by tauto) hn
  rw [if_neg h9] at h
  by_cases h10 : name = kwAppid
  · rw [if_pos h10] at h
    obtain ⟨s, hps, v, hf1⟩ := pU32F_inv h
    refine ⟨s, hps, ?_,?_,?_,?_,?_,?_,?_,?_,?_,?_,?_,?_,?_,?_⟩
    · intro he; exact absurd (h10.symm.trans he) (by decide)
    · intro he; exact absurd (h10.symm.trans he) (by decide)
    · intro he; exact absurd (h10.symm.trans he) (by decide)
    · intro he; exact absurd (h10.symm.trans he) (by decide)
    · intro he; exact absurd (h10.symm.trans he) (by decide)
    · intro he; exact absurd (h10.symm.trans he) (by decide)
    · intro he; exact absurd (h10.symm.trans he) (by decide)
    · intro he; exact absurd (h10.symm.trans he) (by decide)
    · intro he; exact absurd (h10.symm.trans he) (by decide)
    · intro he; exact absurd (h10.symm.trans he) (by decide)
    · intro he; exact absurd (h10.symm.trans he) (by decide)
    · intro he; exact absurd (h10.symm.trans he) (by decide)
    · intro he; exact absurd (h10.symm.trans he) (by decide)
    · intro _; subst hf1; exact ⟨rfl, rfl⟩
  rw [if_neg h10] at h
  by_cases h11 : name = kwNapp
  · rw [if_pos h11] at h
    obtain ⟨s, hps, v, hf1⟩ := pU32F_inv h
    refine ⟨s, hps, ?_,?_,?_,?_,?_,?_,?_,?_,?_,?_,?_,?_,?_,?_⟩
    · intro he; exact absurd (h11.symm.trans he) (by decide)
    · intro he; exact absurd (h11.symm.trans he) (by decide)
    · intro he; exact absurd (h11.symm.trans he) (by decide)
    · intro he; exact absurd (h11.symm.trans he) (by decide)
    · intro he; exact absurd (h11.symm.trans he) (by decide)
    · intro he; exact absurd (h11.symm.trans he) (by decide)
    · intro he; exact absurd (h11.symm.trans he) (by decide)
    · intro he; exact absurd (h11.symm.trans he) (by decide)
    · intro he; exact absurd (h11.symm.trans he) (by decide)
    · intro he; exact absurd (h11.symm.trans he) (by decide)
    · intro he; exact absurd (h11.symm.trans he) (by decide)
    · intro he; exact absurd (h11.symm.trans he) (by decide)
    · intro he; exact absurd (h11.symm.trans he) (by decide)
    · intro _; subst hf1; exact ⟨rfl, rfl⟩
  rw [if_neg h11] at h
  by_cases h12 : name = kwNand
  · rw [if_pos h12] at h
    obtain ⟨s, b, hps, hbs, hf1⟩ := pBoolF_inv h
    refine ⟨s, hps, ?_,?_,?_,?_,?_,?_,?_,?_,?_,?_,?_,?_,?_,?_⟩
    · intro he; exact absurd (h12.symm.trans he) (by decide)
    · intro he; exact absurd (h12.symm.trans he) (by decide)
    · intro he; exact absurd (h12.symm.trans he) (by decide)
    · intro he; exact absurd (h12.symm.trans he) (by decide)
    · intro he; exact absurd (h12.symm.trans he) (by decide)
    · intro he; exact absurd (h12.symm.trans he) (by decide)
    · intro he; exact absurd (h12.symm.trans he) (by decide)
    · intro _; exact ⟨b, hbs, hf1⟩
    · intro he; exact absurd (h12.symm.trans he) (by decide)
    · intro he; exact absurd (h12.symm.trans he) (by decide)
    · intro he; exact absurd (h12.symm.trans he) (by decide)
    · intro he; exact absurd (h12.symm.trans he) (by decide)
    · intro he; exact absurd (h12.symm.trans he) (by decide)
    · intro hn; exact absurd (by tauto) hn
  rw [if_neg h12] at h
  by_cases h13 : name = kwNor
  · rw [if_pos h13] at h
    obtain ⟨s, b, hps, hbs, hf1⟩ := pBoolF_inv h
    refine ⟨s, hps, ?_,?_,?_,?_,?_,?_,?_,?_,?_,?_,?_,?_,?_,?_⟩
    · intro he; exact absurd (h13.symm.trans he) (by decide)
    · intro he; exact absurd (h13.symm.trans he) (by decide)
    · intro he; exact absurd (h13.symm.trans he) (by decide)
    · intro he; exact absurd (h13.symm.trans he) (by decide)
    · intro he; exact absurd (h13.symm.trans he) (by decide)
    · intro he; exact absurd (h13.symm.trans he) (by decide)
    · intro he; exact absurd (h13.symm.trans he) (by decide)
    · intro he; exact absurd (h13.symm.trans he) (by decide)
    · intro _; exact ⟨b, hbs, hf1⟩
    · intro he; exact absurd (h13.symm.trans he) (by decide)
    · intro he; exact absurd (h13.symm.trans he) (by decide)
    · intro he; exact absurd (h13.symm.trans he) (by decide)
    · intro he; exact absurd (h13.symm.trans he) (by decide)
    · intro hn; exact absurd (by tauto) hn
  rw [if_neg h13] at h
  by_cases h14 : name = kwNoplayers
  · rw [if_pos h14] at h
    obtain ⟨s, b, hps, hbs, hf1⟩ := pBoolF_inv h
    refine ⟨s, hps, ?_,?_,?_,?_,?_,?_,?_,?_,?_,?_,?_,?_,?_,?_⟩
    · intro he; exact absurd (h14.symm.trans he) (by decide)
    · intro he; exact absurd (h14.symm.trans he) (by decide)
    · intro he; exact absurd (h14.symm.trans he) (by decide)
    · intro he; exact absurd (h14.symm.trans he) (by decide)
    · intro he; exact absurd (h14.symm.trans he) (by decide)
    · intro he; exact absurd (h14.symm.trans he) (by decide)
    · intro he; exact absurd (h14.symm.trans he) (by decide)
    · intro he; exact absurd (h14.symm.trans he) (by decide)
    · intro he; exact absurd (h14.symm.trans he) (by decide)
    · intro _; exact ⟨b, hbs, hf1⟩
    · intro he; exact absurd (h14.symm.trans he) (by decide)
    · intro he; exact absurd (h14.symm.trans he) (by decide)
    · intro he; exact absurd (h14.symm.trans he) (by decide)
    · intro hn; exact absurd (by tauto) hn
  rw [if_neg h14] at h
  by_cases h15 : name = kwWhite
  · rw [if_pos h15] at h
    obtain ⟨s, b, hps, hbs, hf1⟩ := pBoolF_inv h
    refine ⟨s, hps, ?_,?_,?_,?_,?_,?_,?_,?_,?_,?_,?_,?_,?_,?_⟩
    · intro he; exact absurd (h15.symm.trans he) (by decide)
    · intro he; exact absurd (h15.symm.trans he) (by decide)
    · intro he; exact absurd (h15.symm.trans he) (by decide)
    · intro he; exact absurd (h15.symm.trans he) (by decide)
    · intro he; exact absurd (h15.symm.trans he) (by decide)
    · intro he; exact absurd (h15.symm.trans he) (by decide)
    · intro he; exact absurd (h15.symm.trans he) (by decide)
    · intro he; exact absurd (h15.symm.trans he) (by decide)
    · intro he; exact absurd (h15.symm.trans he) (by decide)
    · intro he; exact absurd (h15.symm.trans he) (by decide)
    · intro _; exact ⟨b, hbs, hf1⟩
    · intro he; exact absurd (h15.symm.trans he) (by decide)
    · intro he; exact absurd (h15.symm.trans he) (by decide)
    · intro hn; exact absurd (by tauto) hn
  rw [if_neg h15] at h
  by_cases h16 : name = kwGametype
  · rw [if_pos h16] at h
    obtain ⟨s, hps, hutf, hf1⟩ := pStrF_inv h
    refine ⟨s, hps, ?_,?_,?_,?_,?_,?_,?_,?_,?_,?_,?_,?_,?_,?_⟩
    · intro he; exact absurd (h16.symm.trans he) (by decide)
    · intro he; exact absurd (h16.symm.trans he) (by decide)
    · intro he; exact absurd (h16.symm.trans he) (by decide)
    · intro he; exact absurd (h16.symm.trans he) (by decide)
    · intro he; exact absurd (h16.symm.trans he) (by decide)
    · intro he; exact absurd (h16.symm.trans he) (by decide)
    · intro he; exact absurd (h16.symm.trans he) (by decide)
    · intro he; exact absurd (h16.symm.trans he) (by decide)
    · intro he; exact absurd (h16.symm.trans he) (by decide)
    · intro he; exact absurd (h16.symm.trans he) (by decide)
    · intro he; exact absurd (h16.symm.trans he) (by decide)
    · intro he; exact absurd (h16.symm.trans he) (by decide)
    · intro he; exact absurd (h16.symm.trans he) (by decide)
    · intro _; subst hf1; exact ⟨rfl, rfl⟩
  rw [if_neg h16] at h
  by_cases h17 : name = kwGamedata
  · rw [if_pos h17] at h
    obtain ⟨s, hps, hutf, hf1⟩ := pStrF_inv h
    refine ⟨s, hps, ?_,?_,?_,?_,?_,?_,?_,?_,?_,?_,?_,?_,?_,?_⟩
    · intro he; exact absurd (h17.symm.trans he) (by decide)
    · intro he; exact absurd (h17.symm.trans he) (by decide)
    · intro he; exact absurd (h17.symm.trans he) (by decide)
    · intro he; exact absurd (h17.symm.trans he) (by decide)
    · intro he; exact absurd (h17.symm.trans he) (by decide)
    · intro he; exact absurd (h17.symm.trans he) (by decide)
    · intro he; exact absurd (h17.symm.trans he) (by decide)
    · intro he; exact absurd (h17.symm.trans he) (by decide)
    · intro he; exact absurd (h17.symm.trans he) (by decide)
    · intro he; exact absurd (h17.symm.trans he) (by decide)
    · intro he; exact absurd (h17.symm.trans he) (by decide)
    · intro he; exact absurd (h17.symm.trans he) (by decide)
    · intro he; exact absurd (h17.symm.trans he) (by decide)
    · intro _; subst hf1; exact ⟨rfl, rfl⟩
  rw [if_neg h17] at h
  by_cases h18 : name = kwGamedataor
  · rw [if_pos h18] at h
    obtain ⟨s, hps, hutf, hf1⟩ := pStrF_inv h
    refine ⟨s, hps, ?_,?_,?_,?_,?_,?_,?_,?_,?_,?_,?_,?_,?_,?_⟩
    · intro he; exact absurd (h18.symm.trans he) (by decide)
    · intro he; exact absurd (h18.symm.trans he) (by decide)
    · intro he; exact absurd (h18.symm.trans he) (by decide)
    · intro he; exact absurd (h18.symm.trans he) (by decide)
    · intro he; exact absurd (h18.symm.trans he) (by decide)
    · intro he; exact absurd (h18.symm.trans he) (by decide)
    · intro he; exact absurd (h18.symm.trans he) (by decide)
    · intro he; exact absurd (h18.symm.trans he) (by decide)
    · intro he; exact absurd (h18.symm.trans he) (by decide)
    · intro he; exact absurd (h18.symm.trans he) (by decide)
    · intro he; exact absurd (h18.symm.trans he) (by decide)
    · intro he; exact absurd (h18.symm.trans he) (by decide)
    · intro he; exact absurd (h18.symm.trans he) (by decide)
    · intro _; subst hf1; exact ⟨rfl, rfl⟩
  rw [if_neg h18] at h
  by_cases h19 : name = kwNameMatch
  · rw [if_pos h19] at h
    obtain ⟨s, hps, hutf, hf1⟩ := pStrF_inv h
    refine ⟨s, hps, ?_,?_,?_,?_,?_,?_,?_,?_,?_,?_,?_,?_,?_,?_⟩
    · intro he; exact absurd (h19.symm.trans he) (by decide)
    · intro he; exact absurd (h19.symm.trans he) (by decide)
    · intro he; exact absurd (h19.symm.trans he) (by decide)
    · intro he; exact absurd (h19.symm.trans he) (by decide)
    · intro he; exact absurd (h19.symm.trans he) (by decide)
    · intro he; exact absurd (h19.symm.trans he) (by decide)
    · intro he; exact absurd (h19.symm.trans he) (by decide)
    · intro he; exact absurd (h19.symm.trans he) (by decide)
    · intro he; exact absurd (h19.symm.trans he) (by decide)
    · intro he; exact absurd (h19.symm.trans he) (by decide)
    · intro he; exact absurd (h19.symm.trans he) (by decide)
    · intro he; exact absurd (h19.symm.trans he) (by decide)
    · intro he; exact absurd (h19.symm.trans he) (by decide)
    · intro _; subst hf1; exact ⟨rfl, rfl⟩
  rw [if_neg h19] at h
  by_cases h20 : name = kwVersionMatch
  · rw [if_pos h20] at h
    obtain ⟨s, hps, hutf, hf1⟩ := pStrF_inv h
    refine ⟨s, hps, ?_,?_,?_,?_,?_,?_,?_,?_,?_,?_,?_,?_,?_,?_⟩
    · intro he; exact absurd (h20.symm.trans he) (by decide)
    · intro he; exact absurd (h20.symm.trans he) (by decide)
    · intro he; exact absurd (h20.symm.trans he) (by decide)
    · intro he; exact absurd (h20.symm.trans he) (by decide)
    · intro he; exact absurd (h20.symm.trans he) (by decide)
    · intro he; exact absurd (h20.symm.trans he) (by decide)
    · intro he; exact absurd (h20.symm.trans he) (by decide)
    · intro he; exact absurd (h20.symm.trans he) (by decide)
    · intro he; exact absurd (h20.symm.trans he) (by decide)
    · intro he; exact absurd (h20.symm.trans he) (by decide)
    · intro he; exact absurd (h20.symm.trans he) (by decide)
    · intro he; exact absurd (h20.symm.trans he) (by decide)
    · intro he; exact absurd (h20.symm.trans he) (by decide)
    · intro _; subst hf1; exact ⟨rfl, rfl⟩
  rw [if_neg h20] at h
  by_cases h21 : name = kwCollapse
  · rw [if_pos h21] at h
    obtain ⟨s, b, hps, hbs, hf1⟩ := pBoolF_inv h
    refine ⟨s, hps, ?_,?_,?_,?_,?_,?_,?_,?_,?_,?_,?_,?_,?_,?_⟩
    · intro he; exact absurd (h21.symm.trans he) (by decide)
    · intro he; exact absurd (h21.symm.trans he) (by decide)
    · intro he; exact absurd (h21.symm.trans he) (by decide)
    · intro he; exact absurd (h21.symm.trans he) (by decide)
    · intro he; exact absurd (h21.symm.trans he) (by decide)
    · intro he; exact absurd (h21.symm.trans he) (by decide)
    · intro he; exact absurd (h21.symm.trans he) (by decide)
    · intro he; exact absurd (h21.symm.trans he) (by decide)
    · intro he; exact absurd (h21.symm.trans he) (by decide)
    · intro he; exact absurd (h21.symm.trans he) (by decide)
    · intro he; exact absurd (h21.symm.trans he) (by decide)
    · intro he; exact absurd (h21.symm.trans he) (by decide)
    · intro he; exact absurd (h21.symm.trans he) (by decide)
    · intro _; subst hf1; exact ⟨rfl, rfl⟩
  rw [if_neg h21] at h
  by_cases h22 : name = kwGameaddr
  · rw [if_pos h22] at h
    obtain ⟨s, hps, hfl, hms⟩ := pGameaddrF_inv h
    refine ⟨s, hps, ?_,?_,?_,?_,?_,?_,?_,?_,?_,?_,?_,?_,?_,?_⟩
    · intro he; exact absurd (h22.symm.trans he) (by decide)
    · intro he; exact absurd (h22.symm.trans he) (by decide)
    · intro he; exact absurd (h22.symm.trans he) (by decide)
    · intro he; exact absurd (h22.symm.trans he) (by decide)
    · intro he; exact absurd (h22.symm.trans he) (by decide)
    · intro he; exact absurd (h22.symm.trans he) (by decide)
    · intro he; exact absurd (h22.symm.trans he) (by decide)
    · intro he; exact absurd (h22.symm.trans he) (by decide)
    · intro he; exact absurd (h22.symm.trans he) (by decide)
    · intro he; exact absurd (h22.symm.trans he) (by decide)
    · intro he; exact absurd (h22.symm.trans he) (by decide)
    · intro he; exact absurd (h22.symm.trans he) (by decide)
    · intro he; exact absurd (h22.symm.trans he) (by decide)
    · intro _; exact ⟨hfl, hms⟩
  rw [if_neg h22] at h
  by_cases h23 : name = kwLan
  · rw [if_pos h23] at h
    obtain ⟨s, b, hps, hbs, hf1⟩ := pBoolF_inv h
    refine ⟨s, hps, ?_,?_,?_,?_,?_,?_,?_,?_,?_,?_,?_,?_,?_,?_⟩
    · intro he; exact absurd (h23.symm.trans he) (by decide)
    · intro he; exact absurd (h23.symm.trans he) (by decide)
    · intro he; exact absurd (h23.symm.trans he) (by decide)
    · intro he; exact absurd (h23.symm.trans he) (by decide)
    · intro he; exact absurd (h23.symm.trans he) (by decide)
    · intro he; exact absurd (h23.symm.trans he) (by decide)
    · intro he; exact absurd (h23.symm.trans he) (by decide)
    · intro he; exact absurd (h23.symm.trans he) (by decide)
    · intro he; exact absurd (h23.symm.trans he) (by decide)
    · intro he; exact absurd (h23.symm.trans he) (by decide)
    · intro he; exact absurd (h23.symm.trans he) (by decide)
    · intro _; exact ⟨b, hbs, hf1⟩
    · intro he; exact absurd (h23.symm.trans he) (by decide)
    · intro hn; exact absurd (by tauto) hn
  rw [if_neg h23] at h
  by_cases h24 : name = kwBots
  · rw [if_pos h24] at h
    obtain ⟨s, b, hps, hbs, hf1⟩ := pBoolF_inv h
    refine ⟨s, hps, ?_,?_,?_,?_,?_,?_,?_,?_,?_,?_,?_,?_,?_,?_⟩
    · intro he; exact absurd (h24.symm.trans he) (by decide)
    · intro he; exact absurd (h24.symm.trans he) (by decide)
    · intro he; exact absurd (h24.symm.trans he) (by decide)
    · intro he; exact absurd (h24.symm.trans he) (by decide)
    · intro he; exact absurd (h24.symm.trans he) (by decide)
    · intro he; exact absurd (h24.symm.trans he) (by decide)
    · intro he; exact absurd (h24.symm.trans he) (by decide)
    · intro he; exact absurd (h24.symm.trans he) (by decide)
    · intro he; exact absurd (h24.symm.trans he) (by decide)
    · intro he; exact absurd (h24.symm.trans he) (by decide)
    · intro he; exact absurd (h24.symm.trans he) (by decide)
    · intro he; exact absurd (h24.symm.trans he) (by decide)
    · intro _; exact ⟨b, hbs, hf1⟩
    · intro hn; exact absurd (by tauto) hn
  rw [if_neg h24] at h
  obtain ⟨s, hps, hf1⟩ := pSkipF_inv h
  refine ⟨s, hps, ?_,?_,?_,?_,?_,?_,?_,?_,?_,?_,?_,?_,?_,?_⟩
  · intro he; exact absurd he h1
  · intro he; exact absurd he h2
  · intro he; exact absurd he h5
  · intro he; exact absurd he h6
  · intro he; exact absurd he h7
  · intro he; exact absurd he h8
  · intro he; exact absurd he h9
  · intro he; exact absurd he h12
  · intro he; exact absurd he h13
  · intro he; exact absurd he h14
  · intro he; exact absurd he h15
  · intro he; exact absurd he h23
  · intro he; exact absurd he h24
  · intro _; subst hf1; exact ⟨rfl, rfl⟩

theorem stepArm_shrink : ∀ {f : Filter} {name r : List Nat} {f1 : Filter} {r2 : List Nat},
    stepArm f name r = .ok (f1, r2) → r2.length < r.length := by
  intro f name r f1 r2 h
  obtain ⟨tok, hps, -⟩ := stepArm_char h
  exact parseBytesL_shrink hps

/-- Decoding loop of `ParseValue for Filter` (`src/filter.rs`): read a
key, dispatch, repeat until `End` while reading a key. -/
def filterParse (f : Filter) (cur : List Nat) : Res PErr Filter :=
  match h : parseBytesL cur with
  | .err .End => .ok f
  | .err e => .err e
  | .ok (name, r1) =>
    match h2 : stepArm f name r1 with
    | .err e => .err e
    | .ok (f1, r2) => filterParse f1 r2
termination_by cur.length
decreasing_by exact Nat.lt_trans (stepArm_shrink h2) (parseBytesL_shrink h)

/-- Mirrors `Filter::from_bytes`. -/
def filterFromBytes (s : List Nat) : Res PErr Filter := filterParse defaultFilter s

theorem filterParse_end {f : Filter} {cur : List Nat} (h : parseBytesL cur = .err .End) :
    filterParse f cur = .ok f := by
  unfold filterParse
  split <;> simp_all

theorem filterParse_step {f : Filter} {cur name r1 : List Nat} {f1 : Filter} {r2 : List Nat}
    (h : parseBytesL cur = .ok (name, r1)) (h2 : stepArm f name r1 = .ok (f1, r2)) :
    filterParse f cur = filterParse f1 r2 := by
  conv_lhs => rw [filterParse.eq_def]
  split <;> simp_all
  obtain ⟨h1a, h1b⟩ := h
  subst h1a; subst h1b
  split <;> simp_all

/-- Field-mismatch test `o.map_or(false, |i| v != i)` of the matcher. -/
def optMismatch (o : Option (List Nat)) (v : List Nat) : Bool :=
  match o with
  | some i => ¬(v = i)
  | none => false

/-- Mirrors `Filter::matches` (`src/filter.rs`). -/
def filterMatches (f : Filter) (addr : Addr) (s : Server) : Bool :=
  if s.flags &&& f.flags_mask ≠ f.flags then false
  else if optMismatch f.gamedir s.gamedir then false
  else if optMismatch f.map s.map then false
  else if optMismatch f.version_match s.version then false
  else
    match f.gameaddr with
    | some a =>
      if addr.ip ≠ a.ip then false
      else if a.port ≠ 0 ∧ addr.port ≠ a.port then false
      else true
    | none => true

/-- C4: whenever the server flags masked by `flags_mask` differ from the
filter `flags`, the matcher rejects, regardless of the gamedir, map,
version and address fields of the filter and of the server. -/
theorem c4_flags_mask_gate (f : Filter) (addr : Addr) (s : Server)
    (h : s.flags &&& f.flags_mask ≠ f.flags) : filterMatches f addr s = false := by
  simp [filterMatches, h]

def addr0 : Addr := ⟨⟨127, 0, 0, 1⟩, 27015⟩

def server0 : Server := ⟨[], [], [], 0, .Europe⟩

def filterMask1 : Filter := { defaultFilter with flags := 1, flags_mask := 1 }

theorem c4_witness : filterMatches filterMask1 addr0 server0 = false :=
  c4_flags_mask_gate filterMask1 addr0 server0 (by decide)

theorem insertFlag_inv {f : Filter} {bit : Nat} {v : Bool}
    (hf : f.flags &&& f.flags_mask = f.flags) :
    (insertFlag f bit v).flags &&& (insertFlag f bit v).flags_mask =
      (insertFlag f bit v).flags := by
  have hbit : ∀ i, (f.flags.testBit i && f.flags_mask.testBit i) = f.flags.testBit i := by
    intro i; rw [← Nat.testBit_land, hf]
  apply Nat.eq_of_testBit_eq
  intro i
  have hi := hbit i
  cases v <;>
    simp only [insertFlag, setB16, if_true, if_false, Bool.false_eq_true, ite_true, ite_false,
      Nat.testBit_land, Nat.testBit_lor, Nat.testBit_xor] <;>
    revert hi <;>
    cases f.flags.testBit i <;>
    cases f.flags_mask.testBit i <;>
    cases bit.testBit i <;>
    cases (65535 : Nat).testBit i <;>
    simp

set_option maxHeartbeats 1000000 in
theorem stepArm_inv : ∀ {f : Filter} {name r : List Nat} {f1 : Filter} {r2 : List Nat},
    stepArm f name r = .ok (f1, r2) →
    f.flags &&& f.flags_mask = f.flags →
    f1.flags &&& f1.flags_mask = f1.flags := by
  intro f name r f1 r2 h hf
  obtain ⟨tok, -, k1, k2, k3, k4, k5, k6, k7, k8, k9, k10, k11, k12, k13, klast⟩ := stepArm_char h
  by_cases h1 : name = kwDedicated
  · obtain ⟨b, -, hf1⟩ := k1 h1
    rw [hf1]; exact insertFlag_inv hf
  by_cases h2 : name = kwSecure
  · obtain ⟨b, -, hf1⟩ := k2 h2
    rw [hf1]; exact insertFlag_inv hf
  by_cases h3 : name = kwEmpty
  · obtain ⟨b, -, hf1⟩ := k3 h3
    rw [hf1]; exact insertFlag_inv hf
  by_cases h4 : name = kwFull
  · obtain ⟨b, -, hf1⟩ := k4 h4
    rw [hf1]; exact insertFlag_inv hf
  by_cases h5 : name = kwLinux
  · obtain ⟨b, -, hf1⟩ := k5 h5
    rw [hf1]; exact insertFlag_inv hf
  by_cases h6 : name = kwPassword
  · obtain ⟨b, -, hf1⟩ := k6 h6
    rw [hf1]; exact insertFlag_inv hf
  by_cases h7 : name = kwProxy
  · obtain ⟨b, -, hf1⟩ := k7 h7
    rw [hf1]; exact insertFlag_inv hf
  by_cases h8 : name = kwNand
  · obtain ⟨b, -, hf1⟩ := k8 h8
    rw [hf1]; exact insertFlag_inv hf
  by_cases h9 : name = kwNor
  · obtain ⟨b, -, hf1⟩ := k9 h9
    rw [hf1]; exact insertFlag_inv hf
  by_cases h10 : name = kwNoplayers
  · obtain ⟨b, -, hf1⟩ := k10 h10
    rw [hf1]; exact insertFlag_inv hf
  by_cases h11 : name = kwWhite
  · obtain ⟨b, -, hf1⟩ := k11 h11
    rw [hf1]; exact insertFlag_inv hf
  by_cases h12 : name = kwLan
  · obtain ⟨b, -, hf1⟩ := k12 h12
    rw [hf1]; exact insertFlag_inv hf
  by_cases h13 : name = kwBots
  · obtain ⟨b, -, hf1⟩ := k13 h13
    rw [hf1]; exact insertFlag_inv hf
  have hn : ¬(name = kwDedicated ∨ name = kwSecure ∨ name = kwEmpty ∨ name = kwFull ∨
      name = kwLinux ∨ name = kwPassword ∨ name = kwProxy ∨ name = kwNand ∨
      name = kwNor ∨ name = kwNoplayers ∨ name = kwWhite ∨ name = kwLan ∨
      name = kwBots) := by
    rintro (hx | hx | hx | hx | hx | hx | hx | hx | hx | hx | hx | hx | hx)
    · exact h1 hx
    · exact h2 hx
    · exact h3 hx
    · exact h4 hx
    · exact h5 hx
    · exact h6 hx
    · exact h7 hx
    · exact h8 hx
    · exact h9 hx
    · exact h10 hx
    · exact h11 hx
    · exact h12 hx
    · exact h13 hx
  have hres := klast hn
  rw [hres.1, hres.2]
  exact hf

theorem filterParse_inv : ∀ (n : Nat) (f : Filter) (cur : List Nat), cur.length ≤ n →
    ∀ f2, filterParse f cur = .ok f2 →
    f.flags &&& f.flags_mask = f.flags → f2.flags &&& f2.flags_mask = f2.flags := by
  intro n
  induction n with
  | zero =>
    intro f cur hlen f2 hp hf
    have hnil : cur = [] := List.length_eq_zero.mp (Nat.le_zero.mp hlen)
    subst hnil
    have he : parseBytesL ([] : List Nat) = .err .End := rfl
    rw [filterParse_end he] at hp
    cases hp
    exact hf
  | succ n ih =>
    intro f cur hlen f2 hp hf
    rw [filterParse.eq_def] at hp
    split at hp
    · cases hp; exact hf
    · simp at hp
    · rename_i nm r1 heq
      split at hp
      · simp at hp
      · rename_i f1 r2 heq2
        have hlt : r2.length < cur.length :=
          Nat.lt_trans (stepArm_shrink heq2) (parseBytesL_shrink heq)
        exact ih f1 r2 (by omega) f2 hp (stepArm_inv heq2 hf)

/-- C10: every filter produced by a successful `Filter::from_bytes`
satisfies flags ⊆ flags_mask: the default filter has both fields empty and
`insert_flag` always sets the inserted bit in the mask, so the test
`(server.flags & flags_mask) == flags` is satisfiable at, for instance,
server flags equal to the filter flags. -/
theorem c10_flags_subset_mask : ∀ (s : List Nat) (f : Filter),
    filterFromBytes s = .ok f →
    f.flags &&& f.flags_mask = f.flags ∧
    defaultFilter.flags = 0 ∧ defaultFilter.flags_mask = 0 ∧
    ∃ sf : Nat, sf &&& f.flags_mask = f.flags := by
  intro s f h
  have hinv := filterParse_inv s.length defaultFilter s (le_refl _) f h (by decide)
  exact ⟨hinv, rfl, rfl, f.flags, hinv⟩

theorem c10_witness :
    defaultFilter.flags &&& defaultFilter.flags_mask = defaultFilter.flags ∧
    ∃ sf : Nat, sf &&& defaultFilter.flags_mask = defaultFilter.flags := by
  have he : parseBytesL ([] : List Nat) = .err .End := rfl
  have h := c10_flags_subset_mask [] defaultFilter (filterParse_end he)
  exact ⟨h.1, h.2.2.2⟩

/-- Attribute-stream encoding of a key-value token list:
`\k1\v1\k2\v2...`. -/
def encodeKVs : List (List Nat × List Nat) → List Nat
  | [] => []
  | (k, v) :: rest => 92 :: (k ++ (92 :: (v ++ encodeKVs rest)))

/-- Bytes free of the two token terminators backslash and newline. -/
def goodBytes (l : List Nat) : Bool := l.all (fun c => !(isStop c))

/-- All keys and values of the token list are terminator-free. -/
def goodKVs (kvs : List (List Nat × List Nat)) : Bool :=
  kvs.all (fun kv => goodBytes kv.1 && goodBytes kv.2)

/-- Value attached to the last occurrence of `key` in the token list;
later occurrences overwrite earlier ones in the decoder. -/
def lastVal : List (List Nat × List Nat) → List Nat → Option (List Nat)
  | [], _ => none
  | kv :: rest, key =>
    match lastVal rest key with
    | some v => some v
    | none => if kv.1 = key then some kv.2 else none

/-- The thirteen boolean filter keys paired with the bit index each one
controls in `FilterFlags`. -/
def flagTable : List (List Nat × Nat) :=
  [(kwDedicated, 0), (kwProxy, 1), (kwSecure, 2), (kwLinux, 3),
   (kwPassword, 4), (kwEmpty, 5), (kwFull, 6), (kwNoplayers, 7),
   (kwWhite, 8), (kwLan, 9), (kwBots, 10), (kwNor, 11), (kwNand, 12)]

theorem boolOf_some : ∀ {s : List Nat} {b : Bool},
    boolOf s = some b → b = decide (s = [49]) := by
  intro s b h
  unfold boolOf at h
  split at h
  · rename_i h48
    cases h
    simp [h48]
  · split at h
    · rename_i h49
      cases h
      simp [h49]
    · cases h

theorem takeWhile_all_append {p : Nat → Bool} {k w : List Nat}
    (hk : ∀ c ∈ k, p c = true) :
    (k ++ w).takeWhile p = k ++ w.takeWhile p ∧
    (k ++ w).dropWhile p = w.dropWhile p := by
  induction k with
  | nil => simp
  | cons a t ih =>
    have ha : p a = true := hk a (by simp)
    have ht : ∀ c ∈ t, p c = true := fun c hc => hk c (by simp [hc])
    obtain ⟨ih1, ih2⟩ := ih ht
    simp [List.takeWhile_cons, List.dropWhile_cons, ha, ih1, ih2]

/-- Reading a token off an encoded `\tok` segment whose continuation is
empty or starts at a backslash. -/
theorem parseBytesL_token {k w : List Nat} (hk : goodBytes k = true)
    (hw : w = [] ∨ ∃ t, w = 92 :: t) :
    parseBytesL (92 :: (k ++ w)) = .ok (k, w) := by
  rw [parseBytesL_backslash]
  have hkp : ∀ c ∈ k, (!(isStop c)) = true := by
    intro c hc
    have := List.all_eq_true.mp hk c hc
    simpa using this
  obtain ⟨h1, h2⟩ := takeWhile_all_append hkp
  rw [h1, h2]
  rcases hw with rfl | ⟨t, rfl⟩
  · simp
  · simp [List.takeWhile_cons, List.dropWhile_cons, isStop]

/-- An encoded token list is empty or starts with a backslash. -/
theorem encodeKVs_shape (kvs : List (List Nat × List Nat)) :
    encodeKVs kvs = [] ∨ ∃ t, encodeKVs kvs = 92 :: t := by
  cases kvs with
  | nil => exact Or.inl rfl
  | cons kv rest => exact Or.inr ⟨_, rfl⟩

theorem filterParse_step_err {f : Filter} {cur name r1 : List Nat} {e : PErr}
    (h : parseBytesL cur = .ok (name, r1)) (h2 : stepArm f name r1 = .err e) :
    filterParse f cur = .err e := by
  conv_lhs => rw [filterParse.eq_def]
  split <;> simp_all
  obtain ⟨h1a, h1b⟩ := h
  subst h1a; subst h1b
  split <;> simp_all

theorem insertFlag_testBit_self {f0 : Filter} {bit2 : Nat} {b : Bool} {i : Nat}
    (hb : bit2.testBit i = true) (h16 : (65535 : Nat).testBit i = true) :
    (insertFlag f0 bit2 b).flags_mask.testBit i = true ∧
    (insertFlag f0 bit2 b).flags.testBit i = b := by
  cases b <;>
    simp [insertFlag, setB16, Nat.testBit_lor, Nat.testBit_land, Nat.testBit_xor, hb, h16]

theorem insertFlag_testBit_other {f0 : Filter} {bit2 : Nat} {b : Bool} {i : Nat}
    (hb : bit2.testBit i = false) (h16 : (65535 : Nat).testBit i = true) :
    (insertFlag f0 bit2 b).flags_mask.testBit i = f0.flags_mask.testBit i ∧
    (insertFlag f0 bit2 b).flags.testBit i = f0.flags.testBit i := by
  cases b <;>
    simp [insertFlag, setB16, Nat.testBit_lor, Nat.testBit_land, Nat.testBit_xor, hb, h16]

set_option maxHeartbeats 2000000 in
/-- Effect of one decoder dispatch step on a single flag bit: the key
that owns the bit sets the mask bit and writes the parsed bool into the
flag bit; every other key leaves both bits unchanged. -/
theorem stepArm_flag_update : ∀ {f0 : Filter} {name r : List Nat} {f1 : Filter}
    {r2 : List Nat} {key : List Nat} {i : Nat},
    stepArm f0 name r = .ok (f1, r2) → (key, i) ∈ flagTable →
    (name = key → ∃ tok b, parseBytesL r = .ok (tok, r2) ∧ boolOf tok = some b ∧
        f1.flags_mask.testBit i = true ∧ f1.flags.testBit i = b) ∧
    (name ≠ key → f1.flags_mask.testBit i = f0.flags_mask.testBit i ∧
        f1.flags.testBit i = f0.flags.testBit i) := by
  intro f0 name r f1 r2 key i h hmem
  obtain ⟨tok, hptok, k1, k2, k3, k4, k5, k6, k7, k8, k9, k10, k11, k12, k13, klast⟩ := stepArm_char h
  simp only [flagTable, List.mem_cons, List.not_mem_nil, or_false, Prod.mk.injEq] at hmem
  rcases hmem with hm | hm | hm | hm | hm | hm | hm | hm | hm | hm | hm | hm | hm
  · obtain ⟨rfl, rfl⟩ := hm
    constructor
    · intro he
      obtain ⟨b, hbs, hf1⟩ := k1 he
      subst hf1
      exact ⟨tok, b, hptok, hbs,
        (insertFlag_testBit_self (by decide) (by decide)).1,
        (insertFlag_testBit_self (by decide) (by decide)).2⟩
    · intro hne
      by_cases q1 : name = kwDedicated
      · exact absurd q1 hne
      by_cases q2 : name = kwSecure
      · obtain ⟨b, -, hf1⟩ := k2 q2
        subst hf1
        exact insertFlag_testBit_other (by decide) (by decide)
      by_cases q3 : name = kwEmpty
      · obtain ⟨b, -, hf1⟩ := k3 q3
        subst hf1
        exact insertFlag_testBit_other (by decide) (by decide)
      by_cases q4 : name = kwFull
      · obtain ⟨b, -, hf1⟩ := k4 q4
        subst hf1
        exact insertFlag_testBit_other (by decide) (by decide)
      by_cases q5 : name = kwLinux
      · obtain ⟨b, -, hf1⟩ := k5 q5
        subst hf1
        exact insertFlag_testBit_other (by decide) (by decide)
      by_cases q6 : name = kwPassword
      · obtain ⟨b, -, hf1⟩ := k6 q6
        subst hf1
        exact insertFlag_testBit_other (by decide) (by decide)
      by_cases q7 : name = kwProxy
      · obtain ⟨b, -, hf1⟩ := k7 q7
        subst hf1
        exact insertFlag_testBit_other (by decide) (by decide)
      by_cases q8 : name = kwNand
      · obtain ⟨b, -, hf1⟩ := k8 q8
        subst hf1
        exact insertFlag_testBit_other (by decide) (by decide)
      by_cases q9 : name = kwNor
      · obtain ⟨b, -, hf1⟩ := k9 q9
        subst hf1
        exact insertFlag_testBit_other (by decide) (by decide)
      by_cases q10 : name = kwNoplayers
      · obtain ⟨b, -, hf1⟩ := k10 q10
        subst hf1
        exact insertFlag_testBit_other (by decide) (by decide)
      by_cases q11 : name = kwWhite
      · obtain ⟨b, -, hf1⟩ := k11 q11
        subst hf1
        exact insertFlag_testBit_other (by decide) (by decide)
      by_cases q12 : name = kwLan
      · obtain ⟨b, -, hf1⟩ := k12 q12
        subst hf1
        exact insertFlag_testBit_other (by decide) (by decide)
      by_cases q13 : name = kwBots
      · obtain ⟨b, -, hf1⟩ := k13 q13
        subst hf1
        exact insertFlag_testBit_other (by decide) (by decide)
      have hn : ¬(name = kwDedicated ∨ name = kwSecure ∨ name = kwEmpty ∨
          name = kwFull ∨ name = kwLinux ∨ name = kwPassword ∨ name = kwProxy ∨
          name = kwNand ∨ name = kwNor ∨ name = kwNoplayers ∨ name = kwWhite ∨
          name = kwLan ∨ name = kwBots) := by
        rintro (hx | hx | hx | hx | hx | hx | hx | hx | hx | hx | hx | hx | hx)
        · exact q1 hx
        · exact q2 hx
        · exact q3 hx
        · exact q4 hx
        · exact q5 hx
        · exact q6 hx
        · exact q7 hx
        · exact q8 hx
        · exact q9 hx
        · exact q10 hx
        · exact q11 hx
        · exact q12 hx
        · exact q13 hx
      have hres := klast hn
      exact ⟨by rw [hres.2], by rw [hres.1]⟩
  · obtain ⟨rfl, rfl⟩ := hm
    constructor
    · intro he
      obtain ⟨b, hbs, hf1⟩ := k7 he
      subst hf1
      exact ⟨tok, b, hptok, hbs,
        (insertFlag_testBit_self (by decide) (by decide)).1,
        (insertFlag_testBit_self (by decide) (by decide)).2⟩
    · intro hne
      by_cases q1 : name = kwDedicated
      · obtain ⟨b, -, hf1⟩ := k1 q1
        subst hf1
        exact insertFlag_testBit_other (by decide) (by decide)
      by_cases q2 : name = kwSecure
      · obtain ⟨b, -, hf1⟩ := k2 q2
        subst hf1
        exact insertFlag_testBit_other (by decide) (by decide)
      by_cases q3 : name = kwEmpty
      · obtain ⟨b, -, hf1⟩ := k3 q3
        subst hf1
        exact insertFlag_testBit_other (by decide) (by decide)
      by_cases q4 : name = kwFull
      · obtain ⟨b, -, hf1⟩ := k4 q4
        subst hf1
        exact insertFlag_testBit_other (by decide) (by decide)
      by_cases q5 : name = kwLinux
      · obtain ⟨b, -, hf1⟩ := k5 q5
        subst hf1
        exact insertFlag_testBit_other (by decide) (by decide)
      by_cases q6 : name = kwPassword
      · obtain ⟨b, -, hf1⟩ := k6 q6
        subst hf1
        exact insertFlag_testBit_other (by decide) (by decide)
      by_cases q7 : name = kwProxy
      · exact absurd q7 hne
      by_cases q8 : name = kwNand
      · obtain ⟨b, -, hf1⟩ := k8 q8
        subst hf1
        exact insertFlag_testBit_other (by decide) (by decide)
      by_cases q9 : name = kwNor
      · obtain ⟨b, -, hf1⟩ := k9 q9
        subst hf1
        exact insertFlag_testBit_other (by decide) (by decide)
      by_cases q10 : name = kwNoplayers
      · obtain ⟨b, -, hf1⟩ := k10 q10
        subst hf1
        exact insertFlag_testBit_other (by decide) (by decide)
      by_cases q11 : name = kwWhite
      · obtain ⟨b, -, hf1⟩ := k11 q11
        subst hf1
        exact insertFlag_testBit_other (by decide) (by decide)
      by_cases q12 : name = kwLan
      · obtain ⟨b, -, hf1⟩ := k12 q12
        subst hf1
        exact insertFlag_testBit_other (by decide) (by decide)
      by_cases q13 : name = kwBots
      · obtain ⟨b, -, hf1⟩ := k13 q13
        subst hf1
        exact insertFlag_testBit_other (by decide) (by decide)
      have hn : ¬(name = kwDedicated ∨ name = kwSecure ∨ name = kwEmpty ∨
          name = kwFull ∨ name = kwLinux ∨ name = kwPassword ∨ name = kwProxy ∨
          name = kwNand ∨ name = kwNor ∨ name = kwNoplayers ∨ name = kwWhite ∨
          name = kwLan ∨ name = kwBots) := by
        rintro (hx | hx | hx | hx | hx | hx | hx | hx | hx | hx | hx | hx | hx)
        · exact q1 hx
        · exact q2 hx
        · exact q3 hx
        · exact q4 hx
        · exact q5 hx
        · exact q6 hx
        · exact q7 hx
        · exact q8 hx
        · exact q9 hx
        · exact q10 hx
        · exact q11 hx
        · exact q12 hx
        · exact q13 hx
      have hres := klast hn
      exact ⟨by rw [hres.2], by rw [hres.1]⟩
  · obtain ⟨rfl, rfl⟩ := hm
    constructor
    · intro he
      obtain ⟨b, hbs, hf1⟩ := k2 he
      subst hf1
      exact ⟨tok, b, hptok, hbs,
        (insertFlag_testBit_self (by decide) (by decide)).1,
        (insertFlag_testBit_self (by decide) (by decide)).2⟩
    · intro hne
      by_cases q1 : name = kwDedicated
      · obtain ⟨b, -, hf1⟩ := k1 q1
        subst hf1
        exact insertFlag_testBit_other (by decide) (by decide)
      by_cases q2 : name = kwSecure
      · exact absurd q2 hne
      by_cases q3 : name = kwEmpty
      · obtain ⟨b, -, hf1⟩ := k3 q3
        subst hf1
        exact insertFlag_testBit_other (by decide) (by decide)
      by_cases q4 : name = kwFull
      · obtain ⟨b, -, hf1⟩ := k4 q4
        subst hf1
        exact insertFlag_testBit_other (by decide) (by decide)
      by_cases q5 : name = kwLinux
      · obtain ⟨b, -, hf1⟩ := k5 q5
        subst hf1
        exact insertFlag_testBit_other (by decide) (by decide)
      by_cases q6 : name = kwPassword
      · obtain ⟨b, -, hf1⟩ := k6 q6
        subst hf1
        exact insertFlag_testBit_other (by decide) (by decide)
      by_cases q7 : name = kwProxy
      · obtain ⟨b, -, hf1⟩ := k7 q7
        subst hf1
        exact insertFlag_testBit_other (by decide) (by decide)
      by_cases q8 : name = kwNand
      · obtain ⟨b, -, hf1⟩ := k8 q8
        subst hf1
        exact insertFlag_testBit_other (by decide) (by decide)
      by_cases q9 : name = kwNor
      · obtain ⟨b, -, hf1⟩ := k9 q9
        subst hf1
        exact insertFlag_testBit_other (by decide) (by decide)
      by_cases q10 : name = kwNoplayers
      · obtain ⟨b, -, hf1⟩ := k10 q10
        subst hf1
        exact insertFlag_testBit_other (by decide) (by decide)
      by_cases q11 : name = kwWhite
      · obtain ⟨b, -, hf1⟩ := k11 q11
        subst hf1
        exact insertFlag_testBit_other (by decide) (by decide)
      by_cases q12 : name = kwLan
      · obtain ⟨b, -, hf1⟩ := k12 q12
        subst hf1
        exact insertFlag_testBit_other (by decide) (by decide)
      by_cases q13 : name = kwBots
      · obtain ⟨b, -, hf1⟩ := k13 q13
        subst hf1
        exact insertFlag_testBit_other (by decide) (by decide)
      have hn : ¬(name = kwDedicated ∨ name = kwSecure ∨ name = kwEmpty ∨
          name = kwFull ∨ name = kwLinux ∨ name = kwPassword ∨ name = kwProxy ∨
          name = kwNand ∨ name = kwNor ∨ name = kwNoplayers ∨ name = kwWhite ∨
          name = kwLan ∨ name = kwBots) := by
        rintro (hx | hx | hx | hx | hx | hx | hx | hx | hx | hx | hx | hx | hx)
        · exact q1 hx
        · exact q2 hx
        · exact q3 hx
        · exact q4 hx
        · exact q5 hx
        · exact q6 hx
        · exact q7 hx
        · exact q8 hx
        · exact q9 hx
        · exact q10 hx
        · exact q11 hx
        · exact q12 hx
        · exact q13 hx
      have hres := klast hn
      exact ⟨by rw [hres.2], by rw [hres.1]⟩
  · obtain ⟨rfl, rfl⟩ := hm
    constructor
    · intro he
      obtain ⟨b, hbs, hf1⟩ := k5 he
      subst hf1
      exact ⟨tok, b, hptok, hbs,
        (insertFlag_testBit_self (by decide) (by decide)).1,
        (insertFlag_testBit_self (by decide) (by decide)).2⟩
    · intro hne
      by_cases q1 : name = kwDedicated
      · obtain ⟨b, -, hf1⟩ := k1 q1
        subst hf1
        exact insertFlag_testBit_other (by decide) (by decide)
      by_cases q2 : name = kwSecure
      · obtain ⟨b, -, hf1⟩ := k2 q2
        subst hf1
        exact insertFlag_testBit_other (by decide) (by decide)
      by_cases q3 : name = kwEmpty
      · obtain ⟨b, -, hf1⟩ := k3 q3
        subst hf1
        exact insertFlag_testBit_other (by decide) (by decide)
      by_cases q4 : name = kwFull
      · obtain ⟨b, -, hf1⟩ := k4 q4
        subst hf1
        exact insertFlag_testBit_other (by decide) (by decide)
      by_cases q5 : name = kwLinux
      · exact absurd q5 hne
      by_cases q6 : name = kwPassword
      · obtain ⟨b, -, hf1⟩ := k6 q6
        subst hf1
        exact insertFlag_testBit_other (by decide) (by decide)
      by_cases q7 : name = kwProxy
      · obtain ⟨b, -, hf1⟩ := k7 q7
        subst hf1
        exact insertFlag_testBit_other (by decide) (by decide)
      by_cases q8 : name = kwNand
      · obtain ⟨b, -, hf1⟩ := k8 q8
        subst hf1
        exact insertFlag_testBit_other (by decide) (by decide)
      by_cases q9 : name = kwNor
      · obtain ⟨b, -, hf1⟩ := k9 q9
        subst hf1
        exact insertFlag_testBit_other (by decide) (by decide)
      by_cases q10 : name = kwNoplayers
      · obtain ⟨b, -, hf1⟩ := k10 q10
        subst hf1
        exact insertFlag_testBit_other (by decide) (by decide)
      by_cases q11 : name = kwWhite
      · obtain ⟨b, -, hf1⟩ := k11 q11
        subst hf1
        exact insertFlag_testBit_other (by decide) (by decide)
      by_cases q12 : name = kwLan
      · obtain ⟨b, -, hf1⟩ := k12 q12
        subst hf1
        exact insertFlag_testBit_other (by decide) (by decide)
      by_cases q13 : name = kwBots
      · obtain ⟨b, -, hf1⟩ := k13 q13
        subst hf1
        exact insertFlag_testBit_other (by decide) (by decide)
      have hn : ¬(name = kwDedicated ∨ name = kwSecure ∨ name = kwEmpty ∨
          name = kwFull ∨ name = kwLinux ∨ name = kwPassword ∨ name = kwProxy ∨
          name = kwNand ∨ name = kwNor ∨ name = kwNoplayers ∨ name = kwWhite ∨
          name = kwLan ∨ name = kwBots) := by
        rintro (hx | hx | hx | hx | hx | hx | hx | hx | hx | hx | hx | hx | hx)
        · exact q1 hx
        · exact q2 hx
        · exact q3 hx
        · exact q4 hx
        · exact q5 hx
        · exact q6 hx
        · exact q7 hx
        · exact q8 hx
        · exact q9 hx
        · exact q10 hx
        · exact q11 hx
        · exact q12 hx
        · exact q13 hx
      have hres := klast hn
      exact ⟨by rw [hres.2], by rw [hres.1]⟩
  · obtain ⟨rfl, rfl⟩ := hm
    constructor
    · intro he
      obtain ⟨b, hbs, hf1⟩ := k6 he
      subst hf1
      exact ⟨tok, b, hptok, hbs,
        (insertFlag_testBit_self (by decide) (by decide)).1,
        (insertFlag_testBit_self (by decide) (by decide)).2⟩
    · intro hne
      by_cases q1 : name = kwDedicated
      · obtain ⟨b, -, hf1⟩ := k1 q1
        subst hf1
        exact insertFlag_testBit_other (by decide) (by decide)
      by_cases q2 : name = kwSecure
      · obtain ⟨b, -, hf1⟩ := k2 q2
        subst hf1
        exact insertFlag_testBit_other (by decide) (by decide)
      by_cases q3 : name = kwEmpty
      · obtain ⟨b, -, hf1⟩ := k3 q3
        subst hf1
        exact insertFlag_testBit_other (by decide) (by decide)
      by_cases q4 : name = kwFull
      · obtain ⟨b, -, hf1⟩ := k4 q4
        subst hf1
        exact insertFlag_testBit_other (by decide) (by decide)
      by_cases q5 : name = kwLinux
      · obtain ⟨b, -, hf1⟩ := k5 q5
        subst hf1
        exact insertFlag_testBit_other (by decide) (by decide)
      by_cases q6 : name = kwPassword
      · exact absurd q6 hne
      by_cases q7 : name = kwProxy
      · obtain ⟨b, -, hf1⟩ := k7 q7
        subst hf1
        exact insertFlag_testBit_other (by decide) (by decide)
      by_cases q8 : name = kwNand
      · obtain ⟨b, -, hf1⟩ := k8 q8
        subst hf1
        exact insertFlag_testBit_other (by decide) (by decide)
      by_cases q9 : name = kwNor
      · obtain ⟨b, -, hf1⟩ := k9 q9
        subst hf1
        exact insertFlag_testBit_other (by decide) (by decide)
      by_cases q10 : name = kwNoplayers
      · obtain ⟨b, -, hf1⟩ := k10 q10
        subst hf1
        exact insertFlag_testBit_other (by decide) (by decide)
      by_cases q11 : name = kwWhite
      · obtain ⟨b, -, hf1⟩ := k11 q11
        subst hf1
        exact insertFlag_testBit_other (by decide) (by decide)
      by_cases q12 : name = kwLan
      · obtain ⟨b, -, hf1⟩ := k12 q12
        subst hf1
        exact insertFlag_testBit_other (by decide) (by decide)
      by_cases q13 : name = kwBots
      · obtain ⟨b, -, hf1⟩ := k13 q13
        subst hf1
        exact insertFlag_testBit_other (by decide) (by decide)
      have hn : ¬(name = kwDedicated ∨ name = kwSecure ∨ name = kwEmpty ∨
          name = kwFull ∨ name = kwLinux ∨ name = kwPassword ∨ name = kwProxy ∨
          name = kwNand ∨ name = kwNor ∨ name = kwNoplayers ∨ name = kwWhite ∨
          name = kwLan ∨ name = kwBots) := by
        rintro (hx | hx | hx | hx | hx | hx | hx | hx | hx | hx | hx | hx | hx)
        · exact q1 hx
        · exact q2 hx
        · exact q3 hx
        · exact q4 hx
        · exact q5 hx
        · exact q6 hx
        · exact q7 hx
        · exact q8 hx
        · exact q9 hx
        · exact q10 hx
        · exact q11 hx
        · exact q12 hx
        · exact q13 hx
      have hres := klast hn
      exact ⟨by rw [hres.2], by rw [hres.1]⟩
  · obtain ⟨rfl, rfl⟩ := hm
    constructor
    · intro he
      obtain ⟨b, hbs, hf1⟩ := k3 he
      subst hf1
      exact ⟨tok, b, hptok, hbs,
        (insertFlag_testBit_self (by decide) (by decide)).1,
        (insertFlag_testBit_self (by decide) (by decide)).2⟩
    · intro hne
      by_cases q1 : name = kwDedicated
      · obtain ⟨b, -, hf1⟩ := k1 q1
        subst hf1
        exact insertFlag_testBit_other (by decide) (by decide)
      by_cases q2 : name = kwSecure
      · obtain ⟨b, -, hf1⟩ := k2 q2
        subst hf1
        exact insertFlag_testBit_other (by decide) (by decide)
      by_cases q3 : name = kwEmpty
      · exact absurd q3 hne
      by_cases q4 : name = kwFull
      · obtain ⟨b, -, hf1⟩ := k4 q4
        subst hf1
        exact insertFlag_testBit_other (by decide) (by decide)
      by_cases q5 : name = kwLinux
      · obtain ⟨b, -, hf1⟩ := k5 q5
        subst hf1
        exact insertFlag_testBit_other (by decide) (by decide)
      by_cases q6 : name = kwPassword
      · obtain ⟨b, -, hf1⟩ := k6 q6
        subst hf1
        exact insertFlag_testBit_other (by decide) (by decide)
      by_cases q7 : name = kwProxy
      · obtain ⟨b, -, hf1⟩ := k7 q7
        subst hf1
        exact insertFlag_testBit_other (by decide) (by decide)
      by_cases q8 : name = kwNand
      · obtain ⟨b, -, hf1⟩ := k8 q8
        subst hf1
        exact insertFlag_testBit_other (by decide) (by decide)
      by_cases q9 : name = kwNor
      · obtain ⟨b, -, hf1⟩ := k9 q9
        subst hf1
        exact insertFlag_testBit_other (by decide) (by decide)
      by_cases q10 : name = kwNoplayers
      · obtain ⟨b, -, hf1⟩ := k10 q10
        subst hf1
        exact insertFlag_testBit_other (by decide) (by decide)
      by_cases q11 : name = kwWhite
      · obtain ⟨b, -, hf1⟩ := k11 q11
        subst hf1
        exact insertFlag_testBit_other (by decide) (by decide)
      by_cases q12 : name = kwLan
      · obtain ⟨b, -, hf1⟩ := k12 q12
        subst hf1
        exact insertFlag_testBit_other (by decide) (by decide)
      by_cases q13 : name = kwBots
      · obtain ⟨b, -, hf1⟩ := k13 q13
        subst hf1
        exact insertFlag_testBit_other (by decide) (by decide)
      have hn : ¬(name = kwDedicated ∨ name = kwSecure ∨ name = kwEmpty ∨
          name = kwFull ∨ name = kwLinux ∨ name = kwPassword ∨ name = kwProxy ∨
          name = kwNand ∨ name = kwNor ∨ name = kwNoplayers ∨ name = kwWhite ∨
          name = kwLan ∨ name = kwBots) := by
        rintro (hx | hx | hx | hx | hx | hx | hx | hx | hx | hx | hx | hx | hx)
        · exact q1 hx
        · exact q2 hx
        · exact q3 hx
        · exact q4 hx
        · exact q5 hx
        · exact q6 hx
        · exact q7 hx
        · exact q8 hx
        · exact q9 hx
        · exact q10 hx
        · exact q11 hx
        · exact q12 hx
        · exact q13 hx
      have hres := klast hn
      exact ⟨by rw [hres.2], by rw [hres.1]⟩
  · obtain ⟨rfl, rfl⟩ := hm
    constructor
    · intro he
      obtain ⟨b, hbs, hf1⟩ := k4 he
      subst hf1
      exact ⟨tok, b, hptok, hbs,
        (insertFlag_testBit_self (by decide) (by decide)).1,
        (insertFlag_testBit_self (by decide) (by decide)).2⟩
    · intro hne
      by_cases q1 : name = kwDedicated
      · obtain ⟨b, -, hf1⟩ := k1 q1
        subst hf1
        exact insertFlag_testBit_other (by decide) (by decide)
      by_cases q2 : name = kwSecure
      · obtain ⟨b, -, hf1⟩ := k2 q2
        subst hf1
        exact insertFlag_testBit_other (by decide) (by decide)
      by_cases q3 : name = kwEmpty
      · obtain ⟨b, -, hf1⟩ := k3 q3
        subst hf1
        exact insertFlag_testBit_other (by decide) (by decide)
      by_cases q4 : name = kwFull
      · exact absurd q4 hne
      by_cases q5 : name = kwLinux
      · obtain ⟨b, -, hf1⟩ := k5 q5
        subst hf1
        exact insertFlag_testBit_other (by decide) (by decide)
      by_cases q6 : name = kwPassword
      · obtain ⟨b, -, hf1⟩ := k6 q6
        subst hf1
        exact insertFlag_testBit_other (by decide) (by decide)
      by_cases q7 : name = kwProxy
      · obtain ⟨b, -, hf1⟩ := k7 q7
        subst hf1
        exact insertFlag_testBit_other (by decide) (by decide)
      by_cases q8 : name = kwNand
      · obtain ⟨b, -, hf1⟩ := k8 q8
        subst hf1
        exact insertFlag_testBit_other (by decide) (by decide)
      by_cases q9 : name = kwNor
      · obtain ⟨b, -, hf1⟩ := k9 q9
        subst hf1
        exact insertFlag_testBit_other (by decide) (by decide)
      by_cases q10 : name = kwNoplayers
      · obtain ⟨b, -, hf1⟩ := k10 q10
        subst hf1
        exact insertFlag_testBit_other (by decide) (by decide)
      by_cases q11 : name = kwWhite
      · obtain ⟨b, -, hf1⟩ := k11 q11
        subst hf1
        exact insertFlag_testBit_other (by decide) (by decide)
      by_cases q12 : name = kwLan
      · obtain ⟨b, -, hf1⟩ := k12 q12
        subst hf1
        exact insertFlag_testBit_other (by decide) (by decide)
      by_cases q13 : name = kwBots
      · obtain ⟨b, -, hf1⟩ := k13 q13
        subst hf1
        exact insertFlag_testBit_other (by decide) (by decide)
      have hn : ¬(name = kwDedicated ∨ name = kwSecure ∨ name = kwEmpty ∨
          name = kwFull ∨ name = kwLinux ∨ name = kwPassword ∨ name = kwProxy ∨
          name = kwNand ∨ name = kwNor ∨ name = kwNoplayers ∨ name = kwWhite ∨
          name = kwLan ∨ name = kwBots) := by
        rintro (hx | hx | hx | hx | hx | hx | hx | hx | hx | hx | hx | hx | hx)
        · exact q1 hx
        · exact q2 hx
        · exact q3 hx
        · exact q4 hx
        · exact q5 hx
        · exact q6 hx
        · exact q7 hx
        · exact q8 hx
        · exact q9 hx
        · exact q10 hx
        · exact q11 hx
        · exact q12 hx
        · exact q13 hx
      have hres := klast hn
      exact ⟨by rw [hres.2], by rw [hres.1]⟩
  · obtain ⟨rfl, rfl⟩ := hm
    constructor
    · intro he
      obtain ⟨b, hbs, hf1⟩ := k10 he
      subst hf1
      exact ⟨tok, b, hptok, hbs,
        (insertFlag_testBit_self (by decide) (by decide)).1,
        (insertFlag_testBit_self (by decide) (by decide)).2⟩
    · intro hne
      by_cases q1 : name = kwDedicated
      · obtain ⟨b, -, hf1⟩ := k1 q1
        subst hf1
        exact insertFlag_testBit_other (by decide) (by decide)
      by_cases q2 : name = kwSecure
      · obtain ⟨b, -, hf1⟩ := k2 q2
        subst hf1
        exact insertFlag_testBit_other (by decide) (by decide)
      by_cases q3 : name = kwEmpty
      · obtain ⟨b, -, hf1⟩ := k3 q3
        subst hf1
        exact insertFlag_testBit_other (by decide) (by decide)
      by_cases q4 : name = kwFull
      · obtain ⟨b, -, hf1⟩ := k4 q4
        subst hf1
        exact insertFlag_testBit_other (by decide) (by decide)
      by_cases q5 : name = kwLinux
      · obtain ⟨b, -, hf1⟩ := k5 q5
        subst hf1
        exact insertFlag_testBit_other (by decide) (by decide)
      by_cases q6 : name = kwPassword
      · obtain ⟨b, -, hf1⟩ := k6 q6
        subst hf1
        exact insertFlag_testBit_other (by decide) (by decide)
      by_cases q7 : name = kwProxy
      · obtain ⟨b, -, hf1⟩ := k7 q7
        subst hf1
        exact insertFlag_testBit_other (by decide) (by decide)
      by_cases q8 : name = kwNand
      · obtain ⟨b, -, hf1⟩ := k8 q8
        subst hf1
        exact insertFlag_testBit_other (by decide) (by decide)
      by_cases q9 : name = kwNor
      · obtain ⟨b, -, hf1⟩ := k9 q9
        subst hf1
        exact insertFlag_testBit_other (by decide) (by decide)
      by_cases q10 : name = kwNoplayers
      · exact absurd q10 hne
      by_cases q11 : name = kwWhite
      · obtain ⟨b, -, hf1⟩ := k11 q11
        subst hf1
        exact insertFlag_testBit_other (by decide) (by decide)
      by_cases q12 : name = kwLan
      · obtain ⟨b, -, hf1⟩ := k12 q12
        subst hf1
        exact insertFlag_testBit_other (by decide) (by decide)
      by_cases q13 : name = kwBots
      · obtain ⟨b, -, hf1⟩ := k13 q13
        subst hf1
        exact insertFlag_testBit_other (by decide) (by decide)
      have hn : ¬(name = kwDedicated ∨ name = kwSecure ∨ name = kwEmpty ∨
          name = kwFull ∨ name = kwLinux ∨ name = kwPassword ∨ name = kwProxy ∨
          name = kwNand ∨ name = kwNor ∨ name = kwNoplayers ∨ name = kwWhite ∨
          name = kwLan ∨ name = kwBots) := by
        rintro (hx | hx | hx | hx | hx | hx | hx | hx | hx | hx | hx | hx | hx)
        · exact q1 hx
        · exact q2 hx
        · exact q3 hx
        · exact q4 hx
        · exact q5 hx
        · exact q6 hx
        · exact q7 hx
        · exact q8 hx
        · exact q9 hx
        · exact q10 hx
        · exact q11 hx
        · exact q12 hx
        · exact q13 hx
      have hres := klast hn
      exact ⟨by rw [hres.2], by rw [hres.1]⟩
  · obtain ⟨rfl, rfl⟩ := hm
    constructor
    · intro he
      obtain ⟨b, hbs, hf1⟩ := k11 he
      subst hf1
      exact ⟨tok, b, hptok, hbs,
        (insertFlag_testBit_self (by decide) (by decide)).1,
        (insertFlag_testBit_self (by decide) (by decide)).2⟩
    · intro hne
      by_cases q1 : name = kwDedicated
      · obtain ⟨b, -, hf1⟩ := k1 q1
        subst hf1
        exact insertFlag_testBit_other (by decide) (by decide)
      by_cases q2 : name = kwSecure
      · obtain ⟨b, -, hf1⟩ := k2 q2
        subst hf1
        exact insertFlag_testBit_other (by decide) (by decide)
      by_cases q3 : name = kwEmpty
      · obtain ⟨b, -, hf1⟩ := k3 q3
        subst hf1
        exact insertFlag_testBit_other (by decide) (by decide)
      by_cases q4 : name = kwFull
      · obtain ⟨b, -, hf1⟩ := k4 q4
        subst hf1
        exact insertFlag_testBit_other (by decide) (by decide)
      by_cases q5 : name = kwLinux
      · obtain ⟨b, -, hf1⟩ := k5 q5
        subst hf1
        exact insertFlag_testBit_other (by decide) (by decide)
      by_cases q6 : name = kwPassword
      · obtain ⟨b, -, hf1⟩ := k6 q6
        subst hf1
        exact insertFlag_testBit_other (by decide) (by decide)
      by_cases q7 : name = kwProxy
      · obtain ⟨b, -, hf1⟩ := k7 q7
        subst hf1
        exact insertFlag_testBit_other (by decide) (by decide)
      by_cases q8 : name = kwNand
      · obtain ⟨b, -, hf1⟩ := k8 q8
        subst hf1
        exact insertFlag_testBit_other (by decide) (by decide)
      by_cases q9 : name = kwNor
      · obtain ⟨b, -, hf1⟩ := k9 q9
        subst hf1
        exact insertFlag_testBit_other (by decide) (by decide)
      by_cases q10 : name = kwNoplayers
      · obtain ⟨b, -, hf1⟩ := k10 q10
        subst hf1
        exact insertFlag_testBit_other (by decide) (by decide)
      by_cases q11 : name = kwWhite
      · exact absurd q11 hne
      by_cases q12 : name = kwLan
      · obtain ⟨b, -, hf1⟩ := k12 q12
        subst hf1
        exact insertFlag_testBit_other (by decide) (by decide)
      by_cases q13 : name = kwBots
      · obtain ⟨b, -, hf1⟩ := k13 q13
        subst hf1
        exact insertFlag_testBit_other (by decide) (by decide)
      have hn : ¬(name = kwDedicated ∨ name = kwSecure ∨ name = kwEmpty ∨
          name = kwFull ∨ name = kwLinux ∨ name = kwPassword ∨ name = kwProxy ∨
          name = kwNand ∨ name = kwNor ∨ name = kwNoplayers ∨ name = kwWhite ∨
          name = kwLan ∨ name = kwBots) := by
        rintro (hx | hx | hx | hx | hx | hx | hx | hx | hx | hx | hx | hx | hx)
        · exact q1 hx
        · exact q2 hx
        · exact q3 hx
        · exact q4 hx
        · exact q5 hx
        · exact q6 hx
        · exact q7 hx
        · exact q8 hx
        · exact q9 hx
        · exact q10 hx
        · exact q11 hx
        · exact q12 hx
        · exact q13 hx
      have hres := klast hn
      exact ⟨by rw [hres.2], by rw [hres.1]⟩
  · obtain ⟨rfl, rfl⟩ := hm
    constructor
    · intro he
      obtain ⟨b, hbs, hf1⟩ := k12 he
      subst hf1
      exact ⟨tok, b, hptok, hbs,
        (insertFlag_testBit_self (by decide) (by decide)).1,
        (insertFlag_testBit_self (by decide) (by decide)).2⟩
    · intro hne
      by_cases q1 : name = kwDedicated
      · obtain ⟨b, -, hf1⟩ := k1 q1
        subst hf1
        exact insertFlag_testBit_other (by decide) (by decide)
      by_cases q2 : name = kwSecure
      · obtain ⟨b, -, hf1⟩ := k2 q2
        subst hf1
        exact insertFlag_testBit_other (by decide) (by decide)
      by_cases q3 : name = kwEmpty
      · obtain ⟨b, -, hf1⟩ := k3 q3
        subst hf1
        exact insertFlag_testBit_other (by decide) (by decide)
      by_cases q4 : name = kwFull
      · obtain ⟨b, -, hf1⟩ := k4 q4
        subst hf1
        exact insertFlag_testBit_other (by decide) (by decide)
      by_cases q5 : name = kwLinux
      · obtain ⟨b, -, hf1⟩ := k5 q5
        subst hf1
        exact insertFlag_testBit_other (by decide) (by decide)
      by_cases q6 : name = kwPassword
      · obtain ⟨b, -, hf1⟩ := k6 q6
        subst hf1
        exact insertFlag_testBit_other (by decide) (by decide)
      by_cases q7 : name = kwProxy
      · obtain ⟨b, -, hf1⟩ := k7 q7
        subst hf1
        exact insertFlag_testBit_other (by decide) (by decide)
      by_cases q8 : name = kwNand
      · obtain ⟨b, -, hf1⟩ := k8 q8
        subst hf1
        exact insertFlag_testBit_other (by decide) (by decide)
      by_cases q9 : name = kwNor
      · obtain ⟨b, -, hf1⟩ := k9 q9
        subst hf1
        exact insertFlag_testBit_other (by decide) (by decide)
      by_cases q10 : name = kwNoplayers
      · obtain ⟨b, -, hf1⟩ := k10 q10
        subst hf1
        exact insertFlag_testBit_other (by decide) (by decide)
      by_cases q11 : name = kwWhite
      · obtain ⟨b, -, hf1⟩ := k11 q11
        subst hf1
        exact insertFlag_testBit_other (by decide) (by decide)
      by_cases q12 : name = kwLan
      · exact absurd q12 hne
      by_cases q13 : name = kwBots
      · obtain ⟨b, -, hf1⟩ := k13 q13
        subst hf1
        exact insertFlag_testBit_other (by decide) (by decide)
      have hn : ¬(name = kwDedicated ∨ name = kwSecure ∨ name = kwEmpty ∨
          name = kwFull ∨ name = kwLinux ∨ name = kwPassword ∨ name = kwProxy ∨
          name = kwNand ∨ name = kwNor ∨ name = kwNoplayers ∨ name = kwWhite ∨
          name = kwLan ∨ name = kwBots) := by
        rintro (hx | hx | hx | hx | hx | hx | hx | hx | hx | hx | hx | hx | hx)
        · exact q1 hx
        · exact q2 hx
        · exact q3 hx
        · exact q4 hx
        · exact q5 hx
        · exact q6 hx
        · exact q7 hx
        · exact q8 hx
        · exact q9 hx
        · exact q10 hx
        · exact q11 hx
        · exact q12 hx
        · exact q13 hx
      have hres := klast hn
      exact ⟨by rw [hres.2], by rw [hres.1]⟩
  · obtain ⟨rfl, rfl⟩ := hm
    constructor
    · intro he
      obtain ⟨b, hbs, hf1⟩ := k13 he
      subst hf1
      exact ⟨tok, b, hptok, hbs,
        (insertFlag_testBit_self (by decide) (by decide)).1,
        (insertFlag_testBit_self (by decide) (by decide)).2⟩
    · intro hne
      by_cases q1 : name = kwDedicated
      · obtain ⟨b, -, hf1⟩ := k1 q1
        subst hf1
        exact insertFlag_testBit_other (by decide) (by decide)
      by_cases q2 : name = kwSecure
      · obtain ⟨b, -, hf1⟩ := k2 q2
        subst hf1
        exact insertFlag_testBit_other (by decide) (by decide)
      by_cases q3 : name = kwEmpty
      · obtain ⟨b, -, hf1⟩ := k3 q3
        subst hf1
        exact insertFlag_testBit_other (by decide) (by decide)
      by_cases q4 : name = kwFull
      · obtain ⟨b, -, hf1⟩ := k4 q4
        subst hf1
        exact insertFlag_testBit_other (by decide) (by decide)
      by_cases q5 : name = kwLinux
      · obtain ⟨b, -, hf1⟩ := k5 q5
        subst hf1
        exact insertFlag_testBit_other (by decide) (by decide)
      by_cases q6 : name = kwPassword
      · obtain ⟨b, -, hf1⟩ := k6 q6
        subst hf1
        exact insertFlag_testBit_other (by decide) (by decide)
      by_cases q7 : name = kwProxy
      · obtain ⟨b, -, hf1⟩ := k7 q7
        subst hf1
        exact insertFlag_testBit_other (by decide) (by decide)
      by_cases q8 : name = kwNand
      · obtain ⟨b, -, hf1⟩ := k8 q8
        subst hf1
        exact insertFlag_testBit_other (by decide) (by decide)
      by_cases q9 : name = kwNor
      · obtain ⟨b, -, hf1⟩ := k9 q9
        subst hf1
        exact insertFlag_testBit_other (by decide) (by decide)
      by_cases q10 : name = kwNoplayers
      · obtain ⟨b, -, hf1⟩ := k10 q10
        subst hf1
        exact insertFlag_testBit_other (by decide) (by decide)
      by_cases q11 : name = kwWhite
      · obtain ⟨b, -, hf1⟩ := k11 q11
        subst hf1
        exact insertFlag_testBit_other (by decide) (by decide)
      by_cases q12 : name = kwLan
      · obtain ⟨b, -, hf1⟩ := k12 q12
        subst hf1
        exact insertFlag_testBit_other (by decide) (by decide)
      by_cases q13 : name = kwBots
      · exact absurd q13 hne
      have hn : ¬(name = kwDedicated ∨ name = kwSecure ∨ name = kwEmpty ∨
          name = kwFull ∨ name = kwLinux ∨ name = kwPassword ∨ name = kwProxy ∨
          name = kwNand ∨ name = kwNor ∨ name = kwNoplayers ∨ name = kwWhite ∨
          name = kwLan ∨ name = kwBots) := by
        rintro (hx | hx | hx | hx | hx | hx | hx | hx | hx | hx | hx | hx | hx)
        · exact q1 hx
        · exact q2 hx
        · exact q3 hx
        · exact q4 hx
        · exact q5 hx
        · exact q6 hx
        · exact q7 hx
        · exact q8 hx
        · exact q9 hx
        · exact q10 hx
        · exact q11 hx
        · exact q12 hx
        · exact q13 hx
      have hres := klast hn
      exact ⟨by rw [hres.2], by rw [hres.1]⟩
  · obtain ⟨rfl, rfl⟩ := hm
    constructor
    · intro he
      obtain ⟨b, hbs, hf1⟩ := k9 he
      subst hf1
      exact ⟨tok, b, hptok, hbs,
        (insertFlag_testBit_self (by decide) (by decide)).1,
        (insertFlag_testBit_self (by decide) (by decide)).2⟩
    · intro hne
      by_cases q1 : name = kwDedicated
      · obtain ⟨b, -, hf1⟩ := k1 q1
        subst hf1
        exact insertFlag_testBit_other (by decide) (by decide)
      by_cases q2 : name = kwSecure
      · obtain ⟨b, -, hf1⟩ := k2 q2
        subst hf1
        exact insertFlag_testBit_other (by decide) (by decide)
      by_cases q3 : name = kwEmpty
      · obtain ⟨b, -, hf1⟩ := k3 q3
        subst hf1
        exact insertFlag_testBit_other (by decide) (by decide)
      by_cases q4 : name = kwFull
      · obtain ⟨b, -, hf1⟩ := k4 q4
        subst hf1
        exact insertFlag_testBit_other (by decide) (by decide)
      by_cases q5 : name = kwLinux
      · obtain ⟨b, -, hf1⟩ := k5 q5
        subst hf1
        exact insertFlag_testBit_other (by decide) (by decide)
      by_cases q6 : name = kwPassword
      · obtain ⟨b, -, hf1⟩ := k6 q6
        subst hf1
        exact insertFlag_testBit_other (by decide) (by decide)
      by_cases q7 : name = kwProxy
      · obtain ⟨b, -, hf1⟩ := k7 q7
        subst hf1
        exact insertFlag_testBit_other (by decide) (by decide)
      by_cases q8 : name = kwNand
      · obtain ⟨b, -, hf1⟩ := k8 q8
        subst hf1
        exact insertFlag_testBit_other (by decide) (by decide)
      by_cases q9 : name = kwNor
      · exact absurd q9 hne
      by_cases q10 : name = kwNoplayers
      · obtain ⟨b, -, hf1⟩ := k10 q10
        subst hf1
        exact insertFlag_testBit_other (by decide) (by decide)
      by_cases q11 : name = kwWhite
      · obtain ⟨b, -, hf1⟩ := k11 q11
        subst hf1
        exact insertFlag_testBit_other (by decide) (by decide)
      by_cases q12 : name = kwLan
      · obtain ⟨b, -, hf1⟩ := k12 q12
        subst hf1
        exact insertFlag_testBit_other (by decide) (by decide)
      by_cases q13 : name = kwBots
      · obtain ⟨b, -, hf1⟩ := k13 q13
        subst hf1
        exact insertFlag_testBit_other (by decide) (by decide)
      have hn : ¬(name = kwDedicated ∨ name = kwSecure ∨ name = kwEmpty ∨
          name = kwFull ∨ name = kwLinux ∨ name = kwPassword ∨ name = kwProxy ∨
          name = kwNand ∨ name = kwNor ∨ name = kwNoplayers ∨ name = kwWhite ∨
          name = kwLan ∨ name = kwBots) := by
        rintro (hx | hx | hx | hx | hx | hx | hx | hx | hx | hx | hx | hx | hx)
        · exact q1 hx
        · exact q2 hx
        · exact q3 hx
        · exact q4 hx
        · exact q5 hx
        · exact q6 hx
        · exact q7 hx
        · exact q8 hx
        · exact q9 hx
        · exact q10 hx
        · exact q11 hx
        · exact q12 hx
        · exact q13 hx
      have hres := klast hn
      exact ⟨by rw [hres.2], by rw [hres.1]⟩
  · obtain ⟨rfl, rfl⟩ := hm
    constructor
    · intro he
      obtain ⟨b, hbs, hf1⟩ := k8 he
      subst hf1
      exact ⟨tok, b, hptok, hbs,
        (insertFlag_testBit_self (by decide) (by decide)).1,
        (insertFlag_testBit_self (by decide) (by decide)).2⟩
    · intro hne
      by_cases q1 : name = kwDedicated
      · obtain ⟨b, -, hf1⟩ := k1 q1
        subst hf1
        exact insertFlag_testBit_other (by decide) (by decide)
      by_cases q2 : name = kwSecure
      · obtain ⟨b, -, hf1⟩ := k2 q2
        subst hf1
        exact insertFlag_testBit_other (by decide) (by decide)
      by_cases q3 : name = kwEmpty
      · obtain ⟨b, -, hf1⟩ := k3 q3
        subst hf1
        exact insertFlag_testBit_other (by decide) (by decide)
      by_cases q4 : name = kwFull
      · obtain ⟨b, -, hf1⟩ := k4 q4
        subst hf1
        exact insertFlag_testBit_other (by decide) (by decide)
      by_cases q5 : name = kwLinux
      · obtain ⟨b, -, hf1⟩ := k5 q5
        subst hf1
        exact insertFlag_testBit_other (by decide) (by decide)
      by_cases q6 : name = kwPassword
      · obtain ⟨b, -, hf1⟩ := k6 q6
        subst hf1
        exact insertFlag_testBit_other (by decide) (by decide)
      by_cases q7 : name = kwProxy
      · obtain ⟨b, -, hf1⟩ := k7 q7
        subst hf1
        exact insertFlag_testBit_other (by decide) (by decide)
      by_cases q8 : name = kwNand
      · exact absurd q8 hne
      by_cases q9 : name = kwNor
      · obtain ⟨b, -, hf1⟩ := k9 q9
        subst hf1
        exact insertFlag_testBit_other (by decide) (by decide)
      by_cases q10 : name = kwNoplayers
      · obtain ⟨b, -, hf1⟩ := k10 q10
        subst hf1
        exact insertFlag_testBit_other (by decide) (by decide)
      by_cases q11 : name = kwWhite
      · obtain ⟨b, -, hf1⟩ := k11 q11
        subst hf1
        exact insertFlag_testBit_other (by decide) (by decide)
      by_cases q12 : name = kwLan
      · obtain ⟨b, -, hf1⟩ := k12 q12
        subst hf1
        exact insertFlag_testBit_other (by decide) (by decide)
      by_cases q13 : name = kwBots
      · obtain ⟨b, -, hf1⟩ := k13 q13
        subst hf1
        exact insertFlag_testBit_other (by decide) (by decide)
      have hn : ¬(name = kwDedicated ∨ name = kwSecure ∨ name = kwEmpty ∨
          name = kwFull ∨ name = kwLinux ∨ name = kwPassword ∨ name = kwProxy ∨
          name = kwNand ∨ name = kwNor ∨ name = kwNoplayers ∨ name = kwWhite ∨
          name = kwLan ∨ name = kwBots) := by
        rintro (hx | hx | hx | hx | hx | hx | hx | hx | hx | hx | hx | hx | hx)
        · exact q1 hx
        · exact q2 hx
        · exact q3 hx
        · exact q4 hx
        · exact q5 hx
        · exact q6 hx
        · exact q7 hx
        · exact q8 hx
        · exact q9 hx
        · exact q10 hx
        · exact q11 hx
        · exact q12 hx
        · exact q13 hx
      have hres := klast hn
      exact ⟨by rw [hres.2], by rw [hres.1]⟩

/-- Running the filter decoding loop over an encoded token list: each flag
bit ends up reflecting the last token that named its key, and stays at the
accumulator value when no token names it. -/
theorem filterParse_kvs : ∀ (kvs : List (List Nat × List Nat)) (f0 fr : Filter),
    goodKVs kvs = true →
    filterParse f0 (encodeKVs kvs) = .ok fr →
    ∀ key i, (key, i) ∈ flagTable →
      (match lastVal kvs key with
       | some v => fr.flags_mask.testBit i = true ∧ fr.flags.testBit i = decide (v = [49])
       | none => fr.flags_mask.testBit i = f0.flags_mask.testBit i ∧
                 fr.flags.testBit i = f0.flags.testBit i) := by
  intro kvs
  induction kvs with
  | nil =>
    intro f0 fr hg hp key i hmem
    have he : parseBytesL ([] : List Nat) = .err .End := rfl
    simp only [encodeKVs] at hp
    rw [filterParse_end he] at hp
    cases hp
    simp [lastVal]
  | cons kv rest ih =>
    obtain ⟨k, v⟩ := kv
    intro f0 fr hg hp key i hmem
    simp only [goodKVs, List.all_cons, Bool.and_eq_true] at hg
    obtain ⟨⟨hk, hv⟩, hrest⟩ := hg
    have h1 : parseBytesL (encodeKVs ((k, v) :: rest)) =
        .ok (k, 92 :: (v ++ encodeKVs rest)) := by
      show parseBytesL (92 :: (k ++ (92 :: (v ++ encodeKVs rest)))) = _
      exact parseBytesL_token hk (Or.inr ⟨_, rfl⟩)
    have h2tok : parseBytesL (92 :: (v ++ encodeKVs rest)) = .ok (v, encodeKVs rest) :=
      parseBytesL_token hv (encodeKVs_shape rest)
    cases hs : stepArm f0 k (92 :: (v ++ encodeKVs rest)) with
    | err e =>
      rw [filterParse_step_err h1 hs] at hp
      simp at hp
    | ok p =>
      obtain ⟨f1, r2⟩ := p
      obtain ⟨tok0, hptok0, -⟩ := stepArm_char hs
      have hr2 : tok0 = v ∧ r2 = encodeKVs rest := by
        have hcomb := hptok0.symm.trans h2tok
        simp only [Res.ok.injEq, Prod.mk.injEq] at hcomb
        exact hcomb
      obtain ⟨-, hr2e⟩ := hr2
      subst hr2e
      rw [filterParse_step h1 hs] at hp
      have IH := ih f1 fr hrest hp key i hmem
      simp only [lastVal]
      cases hl : lastVal rest key with
      | some v0 =>
        simp only [hl] at IH ⊢
        exact IH
      | none =>
        simp only [hl] at IH ⊢
        by_cases hkkey : k = key
        · simp only [if_pos hkkey]
          obtain ⟨tok, b, hptk, hbs, hm1, hf1bit⟩ := (stepArm_flag_update hs hmem).1 hkkey
          have htv : tok = v := by
            have hcomb := hptk.symm.trans h2tok
            simp only [Res.ok.injEq, Prod.mk.injEq] at hcomb
            exact hcomb.1
          subst htv
          constructor
          · rw [IH.1]
            exact hm1
          · rw [IH.2, hf1bit, boolOf_some hbs]
        · simp only [if_neg hkkey]
          have hpres := (stepArm_flag_update hs hmem).2 hkkey
          exact ⟨IH.1.trans hpres.1, IH.2.trans hpres.2⟩

/-- C6: for every well-formed attribute token list that decodes to a
filter, each flag key named in it (dedicated, secure, linux, password,
proxy, empty, full, noplayers, white, lan, bots, nand, nor) sets its bit
in `flags_mask` and the bit of `flags` equals the supplied 0-or-1 value
(the last occurrence winning, as the decoder overwrites). -/
theorem c6_filter_flag_roundtrip : ∀ (kvs : List (List Nat × List Nat)) (f : Filter),
    goodKVs kvs = true →
    filterFromBytes (encodeKVs kvs) = .ok f →
    ∀ key i v, (key, i) ∈ flagTable → lastVal kvs key = some v →
      f.flags_mask.testBit i = true ∧ f.flags.testBit i = decide (v = [49]) := by
  intro kvs f hg hp key i v hmem hlast
  have h := filterParse_kvs kvs defaultFilter f hg hp key i hmem
  simp only [hlast] at h
  exact h

/-- The filter decoded from the single token `\full\1`. -/
def filterFullW : Filter := insertFlag defaultFilter 64 true

theorem c6_witness :
    filterFromBytes (encodeKVs [(kwFull, [49])]) = .ok filterFullW ∧
    filterFullW.flags_mask.testBit 6 = true ∧ filterFullW.flags.testBit 6 = true := by
  have he : parseBytesL ([] : List Nat) = .err .End := rfl
  have e1 : parseBytesL (encodeKVs [(kwFull, [49])]) =
      .ok (kwFull, [92, 49]) := by decide
  have e2 : stepArm defaultFilter kwFull [92, 49] = .ok (filterFullW, []) := by decide
  have e3 : filterFromBytes (encodeKVs [(kwFull, [49])]) = .ok filterFullW :=
    (filterParse_step e1 e2).trans (filterParse_end he)
  have h := c6_filter_flag_roundtrip [(kwFull, [49])] filterFullW (by decide) e3
    kwFull 6 [49] (by decide) (by decide)
  exact ⟨e3, h.1, by simpa using h.2⟩

/-- Lift of a `PErr`-typed value parse into a server-info dispatch arm. -/
def pArmSI {α : Type} (p : List Nat → Res PErr (α × List Nat)) (r : List Nat)
    (g : α → Option Nat × ServerInfo) : Res SIErr ((Option Nat × ServerInfo) × List Nat) :=
  match p r with
  | .ok (v, r2) => .ok (g v, r2)
  | .err e => .err (.parser e)

/-- Dispatch arm whose value parse already reports `SIErr`. -/
def pArmSI2 {α : Type} (p : List Nat → Res SIErr (α × List Nat)) (r : List Nat)
    (g : α → Option Nat × ServerInfo) : Res SIErr ((Option Nat × ServerInfo) × List Nat) :=
  match p r with
  | .ok (v, r2) => .ok (g v, r2)
  | .err e => .err e

/-- One iteration of the server-info decoding loop after the key has been
read (`src/server_info.rs`, `ParseValue for (Option<u32>, ServerInfo)`). -/
def stepArmSI (ch : Option Nat) (info : ServerInfo) (name r : List Nat) :
    Res SIErr ((Option Nat × ServerInfo) × List Nat) :=
  if name = kwProtocol then pArmSI (parseUInt 8) r (fun v => (ch, { info with protocol := v }))
  else if name = kwChallenge then pArmSI (parseUInt 32) r (fun v => (some v, info))
  else if name = kwPlayers then pArmSI (parseUInt 8) r (fun v => (ch, { info with players := v }))
  else if name = kwMax then pArmSI (parseUInt 8) r (fun v => (ch, { info with max := v }))
  else if name = kwGamedir then pArmSI parseStr r (fun s => (ch, { info with gamedir := s }))
  else if name = kwMap then pArmSI parseStr r (fun s => (ch, { info with map := s }))
  else if name = kwType then pArmSI2 parseServerType r (fun t => (ch, { info with server_type := t }))
  else if name = kwOsName then pArmSI2 parseOs r (fun t => (ch, { info with os := t }))
  else if name = kwVersion then pArmSI parseStr r (fun s => (ch, { info with version := s }))
  else if name = kwRegion then pArmSI2 parseRegion r (fun t => (ch, { info with region := t }))
  else if name = kwProduct then pArmSI parseStr r (fun s => (ch, { info with product := s }))
  else if name = kwBots then pArmSI parseBool r (fun b => (ch, { info with flags := setB8 info.flags 1 b }))
  else if name = kwPassword then pArmSI parseBool r (fun b => (ch, { info with flags := setB8 info.flags 2 b }))
  else if name = kwSecure then pArmSI parseBool r (fun b => (ch, { info with flags := setB8 info.flags 4 b }))
  else if name = kwLan then pArmSI parseBool r (fun b => (ch, { info with flags := setB8 info.flags 8 b }))
  else pArmSI parseBytesL r (fun _ => (ch, info))

theorem parseStr_shrink : ∀ {cur s r : List Nat},
    parseStr cur = .ok (s, r) → r.length < cur.length := by
  intro cur s r h
  exact parseBytesL_shrink (parseStr_inv h).1

theorem parseBool_shrink : ∀ {cur : List Nat} {b : Bool} {r : List Nat},
    parseBool cur = .ok (b, r) → r.length < cur.length := by
  intro cur b r h
  obtain ⟨s, hps, -⟩ := parseBool_inv h
  exact parseBytesL_shrink hps

theorem parseUInt_shrink : ∀ {bits : Nat} {cur : List Nat} {v : Nat} {r : List Nat},
    parseUInt bits cur = .ok (v, r) → r.length < cur.length := by
  intro bits cur v r h
  obtain ⟨s, hps⟩ := parseUInt_inv h
  exact parseBytesL_shrink hps

theorem parseServerType_shrink : ∀ {cur : List Nat} {t : ServerType} {r : List Nat},
    parseServerType cur = .ok (t, r) → r.length < cur.length := by
  intro cur t r h
  unfold parseServerType at h
  cases hb : parseBytesL cur with
  | err e => simp [hb] at h
  | ok p =>
    obtain ⟨s0, r0⟩ := p
    simp only [hb] at h
    split at h <;>
      [skip; split at h] <;>
      [skip; skip; split at h] <;>
      · simp only [Res.ok.injEq, Prod.mk.injEq] at h
        obtain ⟨-, h2⟩ := h
        subst h2
        exact parseBytesL_shrink hb

theorem parseOs_shrink : ∀ {cur : List Nat} {t : Os} {r : List Nat},
    parseOs cur = .ok (t, r) → r.length < cur.length := by
  intro cur t r h
  unfold parseOs at h
  cases hb : parseBytesL cur with
  | err e => simp [hb] at h
  | ok p =>
    obtain ⟨s0, r0⟩ := p
    simp only [hb] at h
    split at h <;>
      [skip; split at h] <;>
      [skip; skip; split at h] <;>
      · simp only [Res.ok.injEq, Prod.mk.injEq] at h
        obtain ⟨-, h2⟩ := h
        subst h2
        exact parseBytesL_shrink hb

theorem parseRegion_shrink : ∀ {cur : List Nat} {t : Region} {r : List Nat},
    parseRegion cur = .ok (t, r) → r.length < cur.length := by
  intro cur t r h
  unfold parseRegion at h
  cases hb : parseUInt 8 cur with
  | err e => simp [hb] at h
  | ok p =>
    obtain ⟨v, r0⟩ := p
    simp only [hb] at h
    cases ht : regionTryFrom v with
    | none => simp [ht] at h
    | some rg =>
      simp only [ht, Res.ok.injEq, Prod.mk.injEq] at h
      obtain ⟨-, h2⟩ := h
      subst h2
      exact parseUInt_shrink hb

theorem pArmSI_shrink {α : Type} {p : List Nat → Res PErr (α × List Nat)}
    (hshrink : ∀ {cur : List Nat} {v : α} {r2 : List Nat},
      p cur = .ok (v, r2) → r2.length < cur.length) :
    ∀ {r : List Nat} {g : α → Option Nat × ServerInfo}
      {st : Option Nat × ServerInfo} {r2 : List Nat},
    pArmSI p r g = .ok (st, r2) → r2.length < r.length := by
  intro r g st r2 h
  unfold pArmSI at h
  cases hb : p r with
  | err e => simp [hb] at h
  | ok q =>
    obtain ⟨v, r1⟩ := q
    simp only [hb, Res.ok.injEq, Prod.mk.injEq] at h
    obtain ⟨-, h2⟩ := h
    subst h2
    exact hshrink hb

theorem pArmSI2_shrink {α : Type} {p : List Nat → Res SIErr (α × List Nat)}
    (hshrink : ∀ {cur : List Nat} {v : α} {r2 : List Nat},
      p cur = .ok (v, r2) → r2.length < cur.length) :
    ∀ {r : List Nat} {g : α → Option Nat × ServerInfo}
      {st : Option Nat × ServerInfo} {r2 : List Nat},
    pArmSI2 p r g = .ok (st, r2) → r2.length < r.length := by
  intro r g st r2 h
  unfold pArmSI2 at h
  cases hb : p r with
  | err e => simp [hb] at h
  | ok q =>
    obtain ⟨v, r1⟩ := q
    simp only [hb, Res.ok.injEq, Prod.mk.injEq] at h
    obtain ⟨-, h2⟩ := h
    subst h2
    exact hshrink hb

theorem stepArmSI_shrink : ∀ {ch : Option Nat} {info : ServerInfo} {name r : List Nat}
    {st : Option Nat × ServerInfo} {r2 : List Nat},
    stepArmSI ch info name r = .ok (st, r2) → r2.length < r.length := by
  intro ch info name r st r2 h
  rw [stepArmSI.eq_def] at h
  by_cases h1 : name = kwProtocol
  · rw [if_pos h1] at h
    exact pArmSI_shrink (fun {a b c} h => parseUInt_shrink h) h
  rw [if_neg h1] at h
  by_cases h2 : name = kwChallenge
  · rw [if_pos h2] at h
    exact pArmSI_shrink (fun {a b c} h => parseUInt_shrink h) h
  rw [if_neg h2] at h
  by_cases h3 : name = kwPlayers
  · rw [if_pos h3] at h
    exact pArmSI_shrink (fun {a b c} h => parseUInt_shrink h) h
  rw [if_neg h3] at h
  by_cases h4 : name = kwMax
  · rw [if_pos h4] at h
    exact pArmSI_shrink (fun {a b c} h => parseUInt_shrink h) h
  rw [if_neg h4] at h
  by_cases h5 : name = kwGamedir
  · rw [if_pos h5] at h
    exact pArmSI_shrink (fun {a b c} h => parseStr_shrink h) h
  rw [if_neg h5] at h
  by_cases h6 : name = kwMap
  · rw [if_pos h6] at h
    exact pArmSI_shrink (fun {a b c} h => parseStr_shrink h) h
  rw [if_neg h6] at h
  by_cases h7 : name = kwType
  · rw [if_pos h7] at h
    exact pArmSI2_shrink (fun {a b c} h => parseServerType_shrink h) h
  rw [if_neg h7] at h
  by_cases h8 : name = kwOsName
  · rw [if_pos h8] at h
    exact pArmSI2_shrink (fun {a b c} h => parseOs_shrink h) h
  rw [if_neg h8] at h
  by_cases h9 : name = kwVersion
  · rw [if_pos h9] at h
    exact pArmSI_shrink (fun {a b c} h => parseStr_shrink h) h
  rw [if_neg h9] at h
  by_cases h10 : name = kwRegion
  · rw [if_pos h10] at h
    exact pArmSI2_shrink (fun {a b c} h => parseRegion_shrink h) h
  rw [if_neg h10] at h
  by_cases h11 : name = kwProduct
  · rw [if_pos h11] at h
    exact pArmSI_shrink (fun {a b c} h => parseStr_shrink h) h
  rw [if_neg h11] at h
  by_cases h12 : name = kwBots
  · rw [if_pos h12] at h
    exact pArmSI_shrink (fun {a b c} h => parseBool_shrink h) h
  rw [if_neg h12] at h
  by_cases h13 : name = kwPassword
  · rw [if_pos h13] at h
    exact pArmSI_shrink (fun {a b c} h => parseBool_shrink h) h
  rw [if_neg h13] at h
  by_cases h14 : name = kwSecure
  · rw [if_pos h14] at h
    exact pArmSI_shrink (fun {a b c} h => parseBool_shrink h) h
  rw [if_neg h14] at h
  by_cases h15 : name = kwLan
  · rw [if_pos h15] at h
    exact pArmSI_shrink (fun {a b c} h => parseBool_shrink h) h
  rw [if_neg h15] at h
  exact pArmSI_shrink (fun {a b c} h => parseBytesL_shrink h) h

/-- Decoding loop of the server-info decoder; returns the remaining
cursor at the terminating `End`. -/
def serverInfoParse (ch : Option Nat) (info : ServerInfo) (cur : List Nat) :
    Res SIErr ((Option Nat × ServerInfo) × List Nat) :=
  match h : parseBytesL cur with
  | .err .End => .ok ((ch, info), cur)
  | .err e => .err (.parser e)
  | .ok (name, r1) =>
    match h2 : stepArmSI ch info name r1 with
    | .err e => .err e
    | .ok (st, r2) => serverInfoParse st.1 st.2 r2
termination_by cur.length
decreasing_by exact Nat.lt_trans (stepArmSI_shrink h2) (parseBytesL_shrink h)

/-- Mirrors `ServerInfo::from_bytes`: run the decoder from the default
record, then strip one leading newline off the tail. -/
def serverInfoFromBytes (src : List Nat) :
    Res SIErr (Option Nat × ServerInfo × List Nat) :=
  match serverInfoParse none defaultServerInfo src with
  | .err e => .err e
  | .ok (st, rest) =>
    .ok (st.1, st.2, match rest with | 10 :: t => t | t => t)

/-- Error of the packet codec (`client::Error`). -/
inductive CErr where
  | InvalidPacket
deriving DecidableEq, Repr

/-- Inbound packets (`client::Packet`); the query filter is kept as raw
bytes as in the source. -/
inductive Packet where
  | Challenge (c : Option Nat)
  | ServerAdd (c : Option Nat) (info : ServerInfo)
  | ServerRemove
  | QueryServers (region : Region) (fb : List Nat)
  | ServerInfo
deriving DecidableEq, Repr

/-- Mirrors `client::decode_cstr`: split at the first NUL, returning the
bytes after it and the bytes before it. -/
def decodeCstr (data : List Nat) : Res CErr (List Nat × List Nat) :=
  match data.findIdx? (fun c => c == 0) with
  | none => .err .InvalidPacket
  | some i => .ok (data.drop (i + 1), data.take i)

/-- Little-endian u32 from four bytes (`u32::from_le_bytes`). -/
def fromLE4 (b0 b1 b2 b3 : Nat) : Nat := b0 + 256 * b1 + 65536 * b2 + 16777216 * b3

/-- Little-endian bytes of a u32 (`u32::to_le_bytes`). -/
def le4 (n : Nat) : List Nat :=
  [n % 256, n / 256 % 256, n / 65536 % 256, n / 16777216 % 256]

/-- Mirrors `Packet::decode` (`src/client.rs`). -/
def decodePacket (s : List Nat) : Res CErr Packet :=
  match s with
  | 49 :: region :: tail =>
    match regionTryFrom region with
    | none => .err .InvalidPacket
    | some rg =>
      match decodeCstr tail with
      | .err e => .err e
      | .ok (t1, _) =>
        match decodeCstr t1 with
        | .err e => .err e
        | .ok (t2, fb) =>
          if t2 = [] then .ok (.QueryServers rg fb) else .err .InvalidPacket
  | [113, 255, b0, b1, b2, b3] => .ok (.Challenge (some (fromLE4 b0 b1 b2 b3)))
  | 48 :: 10 :: tail =>
    match serverInfoFromBytes tail with
    | .ok (ch, info, _) => .ok (.ServerAdd ch info)
    | .err _ => .err .InvalidPacket
  | [98, 10] => .ok .ServerRemove
  | [113] => .ok (.Challenge none)
  | [255, 255, 255, 255, 83, 111, 117, 114, 99, 101, 32, 69, 110, 103, 105,
     110, 101, 32, 81, 117, 101, 114, 121, _, _] => .ok .ServerInfo
  | _ => .err .InvalidPacket

/-- Wrapping 32-bit subtraction `a - b` on the clock. -/
def wsub (a b : Nat) : Nat := (a + 4294967296 - b) % 4294967296

/-- Mirrors `Entry::is_valid`: `(now - time) < duration` in wrapping
32-bit arithmetic. -/
def entryValid {α : Type} (e : Entry α) (now duration : Nat) : Bool :=
  wsub now e.time < duration

/-- Lookup in an association-list map (`HashMap::get`). -/
def lookupA {β : Type} (k : Addr) : List (Addr × β) → Option β
  | [] => none
  | (k2, v) :: t => if k2 = k then some v else lookupA k t

/-- Removal from an association-list map (`HashMap::remove`). -/
def eraseA {β : Type} (k : Addr) (m : List (Addr × β)) : List (Addr × β) :=
  m.filter (fun p => ¬(p.1 = k))

/-- Insert-or-replace in an association-list map (`HashMap::insert`). -/
def insertA {β : Type} (k : Addr) (v : β) (m : List (Addr × β)) : List (Addr × β) :=
  (k, v) :: eraseA k m

/-- Mutable state of `MasterServer`; the socket, the RNG and the start
instant are externalized, so the clock reading and fresh nonces reach the
handlers as arguments. -/
structure MState where
  challenges : List (Addr × Entry Nat)
  servers : List (Addr × Entry Server)
  cleanup_challenges : Nat
  cleanup_servers : Nat
  timeout_challenge : Nat
  timeout_server : Nat
deriving DecidableEq, Repr

/-- Handler error surfaced by the embedded dispatch
(`master_server::Error::MissingChallenge`). -/
inductive MErr where
  | MissingChallenge
deriving DecidableEq, Repr

/-- Threshold `SERVER_CLEANUP_MAX`. -/
def SERVER_CLEANUP_MAX : Nat := 100

/-- Threshold `CHALLENGE_CLEANUP_MAX`. -/
def CHALLENGE_CLEANUP_MAX : Nat := 100

/-- Amortized lazy cleanup shared by `remove_outdated_challenges` and
`remove_outdated_servers`: below the threshold only the skip counter is
bumped; at the threshold the counter resets and invalid entries are
swept. -/
def cleanupStep {α : Type} (counter maxSkip : Nat) (m : List (Addr × Entry α))
    (now ttl : Nat) : Nat × List (Addr × Entry α) :=
  if counter < maxSkip then (counter + 1, m)
  else (0, m.filter (fun p => entryValid p.2 now ttl))

/-- Mirrors `remove_outdated_servers`. -/
def removeOutdatedServers (st : MState) (now : Nat) : MState :=
  let r := cleanupStep st.cleanup_servers SERVER_CLEANUP_MAX st.servers now st.timeout_server
  { st with cleanup_servers := r.1, servers := r.2 }

/-- Mirrors `remove_outdated_challenges`. -/
def removeOutdatedChallenges (st : MState) (now : Nat) : MState :=
  let r := cleanupStep st.cleanup_challenges CHALLENGE_CLEANUP_MAX st.challenges now
    st.timeout_challenge
  { st with cleanup_challenges := r.1, challenges := r.2 }

/-- Mirrors `FilterFlags::from(&ServerInfo)`: the registration-time flag
bits of a server. -/
def filterFlagsFromInfo (i : ServerInfo) : Nat :=
  let f := setB16 0 1 (i.server_type = .Dedicated)
  let f := setB16 f 2 (i.server_type = .Proxy)
  let f := setB16 f 4 (i.flags &&& 4 ≠ 0)
  let f := setB16 f 8 (i.os = .Linux)
  let f := setB16 f 16 (i.flags &&& 2 ≠ 0)
  let f := setB16 f 32 (0 < i.players)
  let f := setB16 f 64 (i.max ≤ i.players)
  let f := setB16 f 128 (i.players = 0)
  let f := setB16 f 512 (i.flags &&& 8 ≠ 0)
  let f := setB16 f 1024 (i.flags &&& 1 ≠ 0)
  f

/-- Mirrors `Server::new`. -/
def serverNew (info : ServerInfo) : Server :=
  { version := info.version, gamedir := info.gamedir, map := info.map,
    flags := filterFlagsFromInfo info, region := info.region }

/-- Mirrors `Entry<Server>::matches`. -/
def entryMatches (e : Entry Server) (addr : Addr) (region : Region) (f : Filter) : Bool :=
  decide (e.value.region = region) && filterMatches f addr e.value

/-- Header `CHALLENGE_RESPONSE_HEADER` = `"\xff\xff\xff\xffs\n"`. -/
def CHALLENGE_RESPONSE_HEADER : List Nat := [255, 255, 255, 255, 115, 10]

/-- Header `SERVER_LIST_HEADER` = `"\xff\xff\xff\xfff\n"`. -/
def SERVER_LIST_HEADER : List Nat := [255, 255, 255, 255, 102, 10]

/-- Mirrors `send_challenge_response`: the datagram written for a
challenge reply. -/
def challengeDatagram (challenge : Nat) (server_challenge : Option Nat) : List Nat :=
  CHALLENGE_RESPONSE_HEADER ++ le4 challenge ++
    (match server_challenge with
     | some x => le4 x
     | none => [])

/-- Mirrors the `Packet::Challenge` arm of `handle_packet`; the fresh
random nonce is `rnd`.  Returns the new state and the response bytes. -/
def handleChallenge (st : MState) (a : Addr) (rnd : Nat) (server_challenge : Option Nat)
    (now : Nat) : MState × List Nat :=
  let st1 := { st with challenges := insertA a ⟨now, rnd⟩ st.challenges }
  let dg := challengeDatagram rnd server_challenge
  (removeOutdatedChallenges st1 now, dg)

/-- Mirrors the `Packet::ServerAdd` arm of `handle_packet`.  Returns the
new state and, when the challenge echo was absent, the reported error. -/
def handleServerAdd (st : MState) (a : Addr) (challenge : Option Nat)
    (info : ServerInfo) (now : Nat) : MState × Option MErr :=
  match challenge with
  | none => (st, some .MissingChallenge)
  | some c =>
    match lookupA a st.challenges with
    | none => (st, none)
    | some e =>
      if entryValid e now st.timeout_challenge = false then (st, none)
      else if c ≠ e.value then (st, none)
      else
        let removed := (lookupA a st.challenges).isSome
        let st1 := { st with challenges := eraseA a st.challenges }
        let st2 :=
          if removed then { st1 with servers := insertA a ⟨now, serverNew info⟩ st1.servers }
          else st1
        (removeOutdatedServers st2 now, none)

/-- Mirrors the `Packet::QueryServers` arm of `handle_packet`: decode the
filter (dropping the query on failure) and stream the valid matching
addresses; the returned list is the iterator fed to `send_server_list`. -/
def queryServers (st : MState) (region : Region) (fb : List Nat) (now : Nat) :
    Option (List Addr) :=
  match filterFromBytes fb with
  | .ok f =>
    some (((st.servers.filter (fun p => entryValid p.2 now st.timeout_server)).filter
      (fun p => entryMatches p.2 p.1 region f)).map (fun p => p.1))
  | .err _ => none

/-- The six bytes written for one server address: four IPv4 octets then
the big-endian port. -/
def encodeAddr (a : Addr) : List Nat :=
  [a.ip.o0, a.ip.o1, a.ip.o2, a.ip.o3, a.port / 256 % 256, a.port % 256]

/-- Inner loop of `send_server_list`: starting at cursor position `pos`,
write address tuples until the iterator ends or the position passes
`MAX_PACKET_SIZE - 12 = 500`; returns the bytes written, the rest of the
iterator and the done flag. -/
def fillDatagram (pos : Nat) : List Addr → List Nat × List Addr × Bool
  | [] => ([], [], true)
  | a :: rest =>
    let bytes := encodeAddr a
    if 500 < pos + 6 then (bytes, rest, false)
    else
      let r := fillDatagram (pos + 6) rest
      (bytes ++ r.1, r.2.1, r.2.2)

theorem fillDatagram_not_done : ∀ (pos : Nat) (l : List Addr),
    (fillDatagram pos l).2.2 = false → (fillDatagram pos l).2.1.length < l.length := by
  intro pos l
  induction l generalizing pos with
  | nil => intro h; simp [fillDatagram] at h
  | cons a rest ih =>
    intro h
    by_cases hc : 500 < pos + 6
    · simp [fillDatagram, hc]
    · simp only [fillDatagram, if_neg hc] at h ⊢
      have := ih (pos + 6) h
      simp only [List.length_cons]
      omega

/-- Mirrors `send_server_list`: the sequence of datagrams sent for the
address iterator, each one `header ++ tuples ++ six zero bytes`. -/
def sendServerList (addrs : List Addr) : List (List Nat) :=
  let r := fillDatagram 6 addrs
  let dg := SERVER_LIST_HEADER ++ r.1 ++ List.replicate 6 0
  if h : r.2.2 then [dg]
  else dg :: sendServerList r.2.1
termination_by addrs.length
decreasing_by exact fillDatagram_not_done 6 addrs (by simpa using h)

/-- C8 (amended): for both directories, an eviction call with the skip
counter below 100 only increments the counter and leaves the map
unchanged; once the counter has reached 100 (the 101st call) it resets to
0 and the map retains exactly the entries valid at the current clock,
i.e. those with `(now − time) < ttl` in wrapping 32-bit arithmetic — so
an entry whose clock difference is at least the TTL (including exactly
equal to it) is removed. -/
theorem c8_eviction_amended (st : MState) (now : Nat) :
    (st.cleanup_challenges < CHALLENGE_CLEANUP_MAX →
      removeOutdatedChallenges st now =
        { st with cleanup_challenges := st.cleanup_challenges + 1 }) ∧
    (¬ st.cleanup_challenges < CHALLENGE_CLEANUP_MAX →
      (removeOutdatedChallenges st now).cleanup_challenges = 0 ∧
      ∀ p : Addr × Entry Nat,
        p ∈ (removeOutdatedChallenges st now).challenges ↔
          p ∈ st.challenges ∧ wsub now p.2.time < st.timeout_challenge) ∧
    (st.cleanup_servers < SERVER_CLEANUP_MAX →
      removeOutdatedServers st now =
        { st with cleanup_servers := st.cleanup_servers + 1 }) ∧
    (¬ st.cleanup_servers < SERVER_CLEANUP_MAX →
      (removeOutdatedServers st now).cleanup_servers = 0 ∧
      ∀ p : Addr × Entry Server,
        p ∈ (removeOutdatedServers st now).servers ↔
          p ∈ st.servers ∧ wsub now p.2.time < st.timeout_server) := by
  refine ⟨?_, ?_, ?_, ?_⟩
  · intro h
    simp only [CHALLENGE_CLEANUP_MAX] at h
    simp [removeOutdatedChallenges, cleanupStep, CHALLENGE_CLEANUP_MAX, h]
  · intro h
    simp only [CHALLENGE_CLEANUP_MAX] at h
    refine ⟨by simp [removeOutdatedChallenges, cleanupStep, CHALLENGE_CLEANUP_MAX, h], ?_⟩
    intro p
    simp [removeOutdatedChallenges, cleanupStep, CHALLENGE_CLEANUP_MAX, h, List.mem_filter, entryValid]
  · intro h
    simp only [SERVER_CLEANUP_MAX] at h
    simp [removeOutdatedServers, cleanupStep, SERVER_CLEANUP_MAX, h]
  · intro h
    simp only [SERVER_CLEANUP_MAX] at h
    refine ⟨by simp [removeOutdatedServers, cleanupStep, SERVER_CLEANUP_MAX, h], ?_⟩
    intro p
    simp [removeOutdatedServers, cleanupStep, SERVER_CLEANUP_MAX, h, List.mem_filter, entryValid]

/-- State for the eviction boundary counterexample: one challenge entry
written at clock 0, skip counter already at the threshold. -/
def stC8 : MState :=
  { challenges := [(addr0, ⟨0, 7⟩)], servers := [], cleanup_challenges := 100,
    cleanup_servers := 0, timeout_challenge := 300, timeout_server := 300 }

/-- C8 counterexample: at clock 300 the entry written at clock 0 has age
exactly equal to the TTL 300, which does not exceed the TTL, yet the
sweep removes it; so "every entry whose (now − time) exceeds the TTL is
removed and every other entry is retained" fails at the boundary. -/
theorem c8_counterexample :
    ¬(wsub 300 0 > 300) ∧
    (addr0, (⟨0, 7⟩ : Entry Nat)) ∈ stC8.challenges ∧
    ¬ stC8.cleanup_challenges < CHALLENGE_CLEANUP_MAX ∧
    (removeOutdatedChallenges stC8 300).challenges = [] := by decide

theorem c8_witness :
    removeOutdatedChallenges
      { challenges := [(addr0, ⟨0, 7⟩)], servers := [], cleanup_challenges := 5,
        cleanup_servers := 0, timeout_challenge := 300, timeout_server := 300 } 10 =
    { challenges := [(addr0, ⟨0, 7⟩)], servers := [], cleanup_challenges := 6,
      cleanup_servers := 0, timeout_challenge := 300, timeout_server := 300 } := by
  have h := (c8_eviction_amended
    { challenges := [(addr0, ⟨0, 7⟩)], servers := [], cleanup_challenges := 5,
      cleanup_servers := 0, timeout_challenge := 300, timeout_server := 300 } 10).1
    (by decide)
  exact h

/-- C5: for a `QueryServers` packet whose filter decodes successfully, the
addresses streamed into the server-list encoder are exactly the server
entries valid against `server_ttl`, stored with the queried region, and
accepted by the filter; in particular every returned address has a stored
region equal to the queried one. -/
theorem c5_region_query (st : MState) (region : Region) (fb : List Nat) (now : Nat)
    (f : Filter) (hf : filterFromBytes fb = .ok f) :
    ∃ l, queryServers st region fb now = some l ∧
      (∀ a, a ∈ l ↔ ∃ e : Entry Server, (a, e) ∈ st.servers ∧
        entryValid e now st.timeout_server = true ∧
        e.value.region = region ∧ filterMatches f a e.value = true) ∧
      (∀ a ∈ l, ∃ e : Entry Server, (a, e) ∈ st.servers ∧ e.value.region = region) := by
  have hq : queryServers st region fb now =
      some (((st.servers.filter (fun p => entryValid p.2 now st.timeout_server)).filter
        (fun p => entryMatches p.2 p.1 region f)).map (fun p => p.1)) := by
    simp only [queryServers, hf]
  refine ⟨_, hq, ?_, ?_⟩
  · intro a
    simp only [List.mem_map, List.mem_filter, entryMatches,
      Bool.and_eq_true, decide_eq_true_eq]
    constructor
    · rintro ⟨⟨a2, e⟩, ⟨⟨hmem, hval⟩, hreg, hmat⟩, rfl⟩
      exact ⟨e, hmem, hval, hreg, hmat⟩
    · rintro ⟨e, hmem, hval, hreg, hmat⟩
      exact ⟨⟨a, e⟩, ⟨⟨hmem, hval⟩, hreg, hmat⟩, rfl⟩
  · intro a ha
    simp only [List.mem_map, List.mem_filter, entryMatches,
      Bool.and_eq_true, decide_eq_true_eq] at ha
    obtain ⟨⟨a2, e⟩, ⟨⟨hmem, -⟩, hreg, -⟩, rfl⟩ := ha
    exact ⟨e, hmem, hreg⟩

/-- State for the query witness: one Europe server written at clock 0. -/
def stC5 : MState :=
  { challenges := [], servers := [(addr0, ⟨0, server0⟩)], cleanup_challenges := 0,
    cleanup_servers := 0, timeout_challenge := 300, timeout_server := 300 }

theorem c5_witness :
    ∃ l, queryServers stC5 Region.Europe [] 0 = some l ∧ addr0 ∈ l := by
  have he : parseBytesL ([] : List Nat) = .err .End := rfl
  obtain ⟨l, hq, hiff, -⟩ :=
    c5_region_query stC5 .Europe [] 0 defaultFilter (filterParse_end he)
  refine ⟨l, hq, ?_⟩
  exact (hiff addr0).mpr ⟨⟨0, server0⟩, by decide, by decide, by decide, by decide⟩

/-- Empty master-server state used by concrete instances. -/
def stEmpty : MState :=
  { challenges := [], servers := [], cleanup_challenges := 0, cleanup_servers := 0,
    timeout_challenge := 300, timeout_server := 300 }

/-- C9: the challenge response datagram is the header `ff ff ff ff 73 0a`
followed by the fresh nonce little-endian, followed by the client nonce
little-endian exactly when the request was the 6-byte `q\xff b0 b1 b2 b3`
form, which decodes those bytes as a little-endian u32; the one-byte `q`
form carries no echo.  In particular `q ff 01 02 03 04` produces the
header, the nonce, then `01 02 03 04`. -/
theorem c9_challenge_response (st : MState) (a : Addr) (now rnd : Nat)
    (b0 b1 b2 b3 : Nat) (h0 : b0 < 256) (h1 : b1 < 256) (h2 : b2 < 256) (h3 : b3 < 256) :
    decodePacket [113, 255, b0, b1, b2, b3] =
      .ok (.Challenge (some (fromLE4 b0 b1 b2 b3))) ∧
    decodePacket [113] = .ok (.Challenge none) ∧
    (∀ x, (handleChallenge st a rnd (some x) now).2 =
      CHALLENGE_RESPONSE_HEADER ++ le4 rnd ++ le4 x) ∧
    ((handleChallenge st a rnd none now).2 = CHALLENGE_RESPONSE_HEADER ++ le4 rnd) ∧
    le4 (fromLE4 b0 b1 b2 b3) = [b0, b1, b2, b3] ∧
    (handleChallenge st a rnd (some (fromLE4 1 2 3 4)) now).2 =
      [255, 255, 255, 255, 115, 10] ++ le4 rnd ++ [1, 2, 3, 4] := by
  refine ⟨rfl, rfl, fun x => by simp [handleChallenge, challengeDatagram], ?_, ?_, ?_⟩
  · simp [handleChallenge, challengeDatagram]
  · simp only [le4, fromLE4, List.cons.injEq, and_true]
    refine ⟨?_, ?_, ?_, ?_⟩ <;> omega
  · have hle : le4 (fromLE4 1 2 3 4) = [1, 2, 3, 4] := by decide
    simp [handleChallenge, challengeDatagram, hle, CHALLENGE_RESPONSE_HEADER]

theorem c9_witness :
    decodePacket [113, 255, 1, 2, 3, 4] = .ok (.Challenge (some 67305985)) ∧
    (handleChallenge stEmpty addr0 7 (some 67305985) 0).2 =
      [255, 255, 255, 255, 115, 10] ++ le4 7 ++ [1, 2, 3, 4] := by
  have h := c9_challenge_response stEmpty addr0 0 7 1 2 3 4
    (by decide) (by decide) (by decide) (by decide)
  refine ⟨?_, ?_⟩
  · have h1 := h.1
    norm_num [fromLE4] at h1
    exact h1
  · have h6 := h.2.2.2.2.2
    norm_num [fromLE4] at h6
    exact h6

theorem wsub_self (n : Nat) : wsub n n = 0 := by
  unfold wsub
  omega

theorem lookupA_eraseA {β : Type} (a : Addr) (m : List (Addr × β)) :
    lookupA a (eraseA a m) = none := by
  induction m with
  | nil => rfl
  | cons p t ih =>
    by_cases hp : p.1 = a
    · simp [eraseA, List.filter_cons, hp] at ih ⊢
      exact ih
    · simp only [eraseA, List.filter_cons] at ih ⊢
      simp only [hp, decide_not]
      simp [lookupA, hp]
      simpa [eraseA] using ih

theorem lookupA_filter_cons_self {β : Type} (a : Addr) (v : β) (m : List (Addr × β))
    (q : Addr × β → Bool) (hq : q (a, v) = true) :
    lookupA a (((a, v) :: m).filter q) = some v := by
  simp [List.filter_cons, hq, lookupA]

/-- C1 (amended): a `ServerAdd` without a challenge echo reports
`MissingChallenge` and leaves the state untouched; with an echo, provided
`server_ttl` is positive, the server directory ends up holding an entry
for the peer timestamped `now` and derived from the info exactly when the
challenge directory held an entry for that peer that is valid against
`challenge_ttl` and whose nonce equals the echoed one — and that
challenge entry is consumed; in every non-accepting case the whole state
is returned unchanged. -/
theorem c1_server_add_amended (st : MState) (a : Addr) (challenge : Option Nat)
    (info : ServerInfo) (now : Nat) (httl : 0 < st.timeout_server) :
    (challenge = none →
      handleServerAdd st a challenge info now = (st, some .MissingChallenge)) ∧
    (∀ c, challenge = some c →
      ((∃ e, lookupA a st.challenges = some e ∧
          entryValid e now st.timeout_challenge = true ∧ e.value = c) →
        ∃ st2, handleServerAdd st a challenge info now = (st2, none) ∧
          lookupA a st2.servers = some ⟨now, serverNew info⟩ ∧
          lookupA a st2.challenges = none) ∧
      ((¬∃ e, lookupA a st.challenges = some e ∧
          entryValid e now st.timeout_challenge = true ∧ e.value = c) →
        handleServerAdd st a challenge info now = (st, none))) := by
  constructor
  · rintro rfl
    rfl
  · intro c hc
    subst hc
    constructor
    · rintro ⟨e, hl, hv, hev⟩
      have hrun : handleServerAdd st a (some c) info now =
          (removeOutdatedServers
            { st with
                challenges := eraseA a st.challenges
                servers := insertA a ⟨now, serverNew info⟩ st.servers }
            now, none) := by
        simp [handleServerAdd, hl, hv, hev, insertA]
      refine ⟨_, hrun, ?_, ?_⟩
      · show lookupA a (removeOutdatedServers _ now).servers = _
        simp only [removeOutdatedServers, cleanupStep, SERVER_CLEANUP_MAX]
        by_cases hcl : st.cleanup_servers < 100
        · simp only [if_pos hcl]
          simp [insertA, lookupA]
        · simp only [if_neg hcl]
          show lookupA a (List.filter _ ((a, ⟨now, serverNew info⟩) :: eraseA a st.servers))
            = _
          apply lookupA_filter_cons_self
          simp [entryValid, wsub_self]
          exact httl
      · show lookupA a (removeOutdatedServers _ now).challenges = none
        simp only [removeOutdatedServers]
        exact lookupA_eraseA a st.challenges
    · intro hne
      cases hl : lookupA a st.challenges with
      | none => simp [handleServerAdd, hl]
      | some e =>
        by_cases hv : entryValid e now st.timeout_challenge = true
        · by_cases hev : c = e.value
          · exact absurd ⟨e, hl, hv, hev.symm⟩ hne
          · simp [handleServerAdd, hl, hv, hev]
        · have hvf : entryValid e now st.timeout_challenge = false :=
            Bool.not_eq_true _ ▸ hv
          simp [handleServerAdd, hl, hvf]

/-- State for the C1 counterexample: a valid challenge for the peer, the
server sweep counter at its threshold, and `timeout_server = 0`. -/
def stC1 : MState :=
  { challenges := [(addr0, ⟨0, 42⟩)], servers := [], cleanup_challenges := 0,
    cleanup_servers := 100, timeout_challenge := 300, timeout_server := 0 }

/-- C1 counterexample: the challenge is present, valid and correctly
echoed, so the claim promises that the server directory gains the peer
entry; but with `timeout_server = 0` the sweep running in the same call
immediately evicts the freshly inserted entry, and the lookup is empty. -/
theorem c1_counterexample :
    (∃ e, lookupA addr0 stC1.challenges = some e ∧
      entryValid e 0 stC1.timeout_challenge = true ∧ e.value = 42) ∧
    (handleServerAdd stC1 addr0 (some 42) defaultServerInfo 0).2 = none ∧
    lookupA addr0 (handleServerAdd stC1 addr0 (some 42) defaultServerInfo 0).1.servers =
      none := by
  refine ⟨⟨⟨0, 42⟩, by decide, by decide, rfl⟩, by decide, by decide⟩

/-- State for the C1 witness: as in the counterexample but with a
positive server TTL and a sweep counter below the threshold. -/
def stC1b : MState :=
  { challenges := [(addr0, ⟨0, 42⟩)], servers := [], cleanup_challenges := 0,
    cleanup_servers := 0, timeout_challenge := 300, timeout_server := 300 }

theorem c1_witness :
    ∃ st2, handleServerAdd stC1b addr0 (some 42) defaultServerInfo 0 = (st2, none) ∧
      lookupA addr0 st2.servers = some ⟨0, serverNew defaultServerInfo⟩ ∧
      lookupA addr0 st2.challenges = none := by
  have h := ((c1_server_add_amended stC1b addr0 (some 42) defaultServerInfo 0
    (by decide)).2 42 rfl).1
  exact h ⟨⟨0, 42⟩, by decide, by decide, rfl⟩

theorem fillDatagram_len : ∀ (pos : Nat) (l : List Addr),
    (fillDatagram pos l).1.length + 6 * (fillDatagram pos l).2.1.length = 6 * l.length := by
  intro pos l
  induction l generalizing pos with
  | nil => simp [fillDatagram]
  | cons a rest ih =>
    by_cases hc : 500 < pos + 6
    · simp [fillDatagram, hc, encodeAddr]
      omega
    · simp only [fillDatagram, if_neg hc, List.length_append, List.length_cons]
      have := ih (pos + 6)
      simp only [encodeAddr, List.length_cons, List.length_nil]
      omega

theorem fillDatagram_bound : ∀ (pos : Nat) (l : List Addr), pos ≤ 500 →
    pos + (fillDatagram pos l).1.length ≤ 506 := by
  intro pos l
  induction l generalizing pos with
  | nil =>
    intro h
    simp [fillDatagram]
    omega
  | cons a rest ih =>
    intro h
    by_cases hc : 500 < pos + 6
    · simp [fillDatagram, hc, encodeAddr]
      omega
    · simp only [fillDatagram, if_neg hc, List.length_append]
      have := ih (pos + 6) (by omega)
      simp only [encodeAddr, List.length_cons, List.length_nil]
      omega

theorem fillDatagram_done : ∀ (pos : Nat) (l : List Addr),
    (fillDatagram pos l).2.2 = true → (fillDatagram pos l).2.1 = [] := by
  intro pos l
  induction l generalizing pos with
  | nil => intro h; simp [fillDatagram]
  | cons a rest ih =>
    intro h
    by_cases hc : 500 < pos + 6
    · simp [fillDatagram, hc] at h
    · simp only [fillDatagram, if_neg hc] at h ⊢
      exact ih (pos + 6) h

theorem sendServerList_eq_done {l : List Addr} (h : (fillDatagram 6 l).2.2 = true) :
    sendServerList l =
      [SERVER_LIST_HEADER ++ (fillDatagram 6 l).1 ++ List.replicate 6 0] := by
  unfold sendServerList
  simp [h]

theorem sendServerList_eq_more {l : List Addr} (h : (fillDatagram 6 l).2.2 = false) :
    sendServerList l =
      (SERVER_LIST_HEADER ++ (fillDatagram 6 l).1 ++ List.replicate 6 0) ::
        sendServerList (fillDatagram 6 l).2.1 := by
  conv_lhs => rw [sendServerList.eq_def]
  simp [h]

/-- Number of six-byte address tuples carried by one list datagram. -/
def tupleCount (dg : List Nat) : Nat := (dg.length - 12) / 6

/-- Total number of address tuples across a sequence of datagrams. -/
def countTuples (dgs : List (List Nat)) : Nat := (dgs.map tupleCount).sum

theorem sendServerList_count_aux : ∀ (n : Nat) (l : List Addr), l.length ≤ n →
    countTuples (sendServerList l) = l.length := by
  intro n
  induction n with
  | zero =>
    intro l hl
    have hnil : l = [] := List.length_eq_zero.mp (Nat.le_zero.mp hl)
    subst hnil
    have hdn : (fillDatagram 6 ([] : List Addr)).2.2 = true := rfl
    rw [sendServerList_eq_done hdn]
    decide
  | succ n ih =>
    intro l hl
    cases hd : (fillDatagram 6 l).2.2 with
    | true =>
      rw [sendServerList_eq_done hd]
      have hrest := fillDatagram_done 6 l hd
      have hlen := fillDatagram_len 6 l
      rw [hrest] at hlen
      simp only [countTuples, tupleCount, List.map_cons, List.map_nil, List.sum_cons,
        List.sum_nil, List.length_append, List.length_replicate, List.length_nil,
        SERVER_LIST_HEADER, List.length_cons] at hlen ⊢
      omega
    | false =>
      rw [sendServerList_eq_more hd]
      have hlt := fillDatagram_not_done 6 l hd
      have hrec := ih (fillDatagram 6 l).2.1 (by omega)
      have hlen := fillDatagram_len 6 l
      simp only [countTuples, List.map_cons, List.sum_cons] at hrec ⊢
      rw [hrec]
      simp only [tupleCount, List.length_append, List.length_replicate,
        SERVER_LIST_HEADER, List.length_cons, List.length_nil]
      omega

theorem datagram_shape (body : List Nat) (hb : body.length ≤ 500) :
    (SERVER_LIST_HEADER ++ body ++ List.replicate 6 0).take 6 = SERVER_LIST_HEADER ∧
    (SERVER_LIST_HEADER ++ body ++ List.replicate 6 0).drop
      ((SERVER_LIST_HEADER ++ body ++ List.replicate 6 0).length - 6) =
      List.replicate 6 0 ∧
    (SERVER_LIST_HEADER ++ body ++ List.replicate 6 0).length ≤ 512 := by
  refine ⟨?_, ?_, ?_⟩
  · rw [show (6 : Nat) = SERVER_LIST_HEADER.length from rfl, List.append_assoc,
      List.take_left]
  · have hlen : (SERVER_LIST_HEADER ++ body ++ List.replicate 6 0).length - 6 =
        (SERVER_LIST_HEADER ++ body).length := by
      simp [SERVER_LIST_HEADER]
    rw [hlen, List.drop_left]
  · simp [SERVER_LIST_HEADER]
    omega

theorem sendServerList_datagram_aux : ∀ (n : Nat) (l : List Addr), l.length ≤ n →
    ∀ dg ∈ sendServerList l,
      dg.take 6 = SERVER_LIST_HEADER ∧
      dg.drop (dg.length - 6) = List.replicate 6 0 ∧
      dg.length ≤ 512 := by
  intro n
  induction n with
  | zero =>
    intro l hl dg hdg
    have hnil : l = [] := List.length_eq_zero.mp (Nat.le_zero.mp hl)
    subst hnil
    have hdn : (fillDatagram 6 ([] : List Addr)).2.2 = true := rfl
    rw [sendServerList_eq_done hdn] at hdg
    simp only [List.mem_singleton] at hdg
    subst hdg
    exact datagram_shape _ (by decide)
  | succ n ih =>
    intro l hl dg hdg
    cases hd : (fillDatagram 6 l).2.2 with
    | true =>
      rw [sendServerList_eq_done hd] at hdg
      simp only [List.mem_singleton] at hdg
      subst hdg
      have hb := fillDatagram_bound 6 l (by omega)
      exact datagram_shape _ (by omega)
    | false =>
      rw [sendServerList_eq_more hd] at hdg
      rcases List.mem_cons.mp hdg with rfl | hmem
      · have hb := fillDatagram_bound 6 l (by omega)
        exact datagram_shape _ (by omega)
      · have hlt := fillDatagram_not_done 6 l hd
        exact ih (fillDatagram 6 l).2.1 (by omega) dg hmem

/-- C3: the datagrams emitted for N addresses carry exactly N six-byte
address tuples in total; every datagram begins with the 6-byte header
`ff ff ff ff 66 0a`, ends with six zero bytes, and is at most 512 bytes
long; and when the iterator is exhausted exactly at a datagram boundary
(83 tuples fill one datagram) one further datagram with zero tuples is
sent. -/
theorem c3_fragmentation :
    (∀ addrs : List Addr, countTuples (sendServerList addrs) = addrs.length) ∧
    (∀ addrs : List Addr, ∀ dg ∈ sendServerList addrs,
      dg.take 6 = SERVER_LIST_HEADER ∧
      dg.drop (dg.length - 6) = List.replicate 6 0 ∧
      dg.length ≤ 512) ∧
    (sendServerList (List.replicate 83 addr0)).length = 2 ∧
    (sendServerList (List.replicate 83 addr0)).getLast? =
      some (SERVER_LIST_HEADER ++ List.replicate 6 0) := by
  refine ⟨fun addrs => sendServerList_count_aux addrs.length addrs (le_refl _),
    fun addrs => sendServerList_datagram_aux addrs.length addrs (le_refl _), ?_, ?_⟩
  all_goals
    have hd : (fillDatagram 6 (List.replicate 83 addr0)).2.2 = false := by decide
    have hrest : (fillDatagram 6 (List.replicate 83 addr0)).2.1 = [] := by decide
    have h2 := sendServerList_eq_more hd
    rw [hrest] at h2
    have hdn : (fillDatagram 6 ([] : List Addr)).2.2 = true := rfl
    have h3 : sendServerList ([] : List Addr) =
        [SERVER_LIST_HEADER ++ List.replicate 6 0] :=
      (sendServerList_eq_done hdn).trans (by decide)
    rw [h2, h3]
  · rfl
  · simp

theorem c3_witness :
    ((SERVER_LIST_HEADER ++ encodeAddr addr0 ++ List.replicate 6 0).take 6 =
      SERVER_LIST_HEADER) ∧
    ((SERVER_LIST_HEADER ++ encodeAddr addr0 ++ List.replicate 6 0).length ≤ 512) := by
  have hmem : (SERVER_LIST_HEADER ++ encodeAddr addr0 ++ List.replicate 6 0) ∈
      sendServerList [addr0] := by
    have hd : (fillDatagram 6 [addr0]).2.2 = true := by decide
    rw [sendServerList_eq_done hd]
    have hfill : (fillDatagram 6 [addr0]).1 = encodeAddr addr0 := by decide
    rw [hfill]
    exact List.mem_singleton_self _
  have h := c3_fragmentation.2.1 [addr0] _ hmem
  exact ⟨h.1, h.2.2⟩

end Phantasma
